import Mathlib

/-!
Verification development for the wayfire `scale` plugin
(`src/plugins/single_plugins/scale.cpp`).

The C++ source is shallowly embedded:

* machine `int` values are modelled as `Int` (C `/` on `int`, which
  truncates toward zero, is modelled by `Int.tdiv`);
* `double`/`float` arithmetic is modelled exactly over `ℚ`; a C cast
  of a floating value to `int` (truncation toward zero) is modelled by
  `ctrunc`;
* `std::map<wayfire_view, view_scale_data>` is modelled as an
  association list with unique keys; `operator[]`, which inserts a
  default-constructed record when the key is absent, is modelled
  explicitly (`indexSlot`);
* the host compositor (output, workspaces, signals, grabs) is modelled
  as a read-only environment `HostEnv` of oracles plus mutable fields in
  the plugin state `S`.

Views (`wayfire_view`) are opaque handles, modelled as `Nat`.
-/

namespace WayfireScale

abbrev View := Nat

/-- A rectangle (`wf::geometry_t` / `wlr_box`): origin and size, ints. -/
structure Rect where
  x : Int
  y : Int
  w : Int
  h : Int
deriving DecidableEq, Repr

/-- A workspace coordinate (`wf::point_t`). -/
structure Pt where
  x : Int
  y : Int
deriving DecidableEq, Repr

/-! ## Grid partition arithmetic (layout_slots, scale.cpp lines 855-859)

`int lines = sqrt(views.size() + 1);` truncates the double square root
to `int`; for the realistic range of window counts (far below 2^26) the
double `sqrt` of an integer is exact enough that this equals
`Nat.sqrt (n + 1)`.  Similarly `(int)std::ceil((double)n / lines)` is
the exact ceiling division for this range. -/

/-- Number of grid rows for `n` windows: `lines = sqrt(n + 1)` (floor). -/
def gridRows (n : Nat) : Nat := Nat.sqrt (n + 1)

/-- Number of grid columns: `ceil(n / lines)`. -/
def gridCols (n : Nat) : Nat := (n + gridRows n - 1) / gridRows n

/-- Columns in the last row:
`std::min(grid_cols, (int)views.size() - (grid_rows - 1) * grid_cols)`,
computed in `int` arithmetic. -/
def gridLastRowCols (n : Nat) : Int :=
  min (gridCols n : Int) ((n : Int) - ((gridRows n : Int) - 1) * (gridCols n : Int))

/-- Column count of row `i`: the loop uses
`n = (i == lines - 1) ? grid_last_row_cols : grid_cols`. -/
def rowColsAt (n : Nat) (i : Nat) : Nat :=
  if i = gridRows n - 1 then (gridLastRowCols n).toNat else gridCols n

/-- The `(row, col)` pairs assigned to slots `0, 1, ...` in order: the
double loop of `layout_slots` walks the rows, handing each row
`rowColsAt` consecutive windows. -/
def layoutAssignments (n : Nat) : List (Nat × Nat) :=
  (List.range (gridRows n)).flatMap
    (fun i => (List.range (rowColsAt n i)).map (fun j => (i, j)))

/-! Basic facts about the grid dimensions. -/

theorem gridRows_pos {n : Nat} (h : 1 ≤ n) : 1 ≤ gridRows n := by
  have := Nat.sqrt_pos (n := n + 1)
  unfold gridRows
  omega

theorem gridRows_sq_le (n : Nat) : gridRows n * gridRows n ≤ n + 1 := by
  have := Nat.sqrt_le' (n + 1)
  unfold gridRows
  nlinarith [this]

theorem lt_gridRows_succ_sq (n : Nat) : n + 1 < (gridRows n + 1) * (gridRows n + 1) := by
  have := Nat.lt_succ_sqrt' (n + 1)
  unfold gridRows
  nlinarith [this]

/-- `rows * cols ≥ n`: the grid has room for every window. -/
theorem le_gridRows_mul_gridCols {n : Nat} (h : 1 ≤ n) :
    n ≤ gridRows n * gridCols n := by
  have hr : 1 ≤ gridRows n := gridRows_pos h
  unfold gridCols
  have hdm := Nat.div_add_mod (n + gridRows n - 1) (gridRows n)
  have hmlt : (n + gridRows n - 1) % gridRows n < gridRows n := Nat.mod_lt _ (by omega)
  omega

/-- `cols` is the least column count: `rows * (cols - 1) < n`. -/
theorem gridRows_mul_pred_gridCols_lt {n : Nat} (h : 1 ≤ n) :
    gridRows n * (gridCols n - 1) < n := by
  have hr : 1 ≤ gridRows n := gridRows_pos h
  have hc : gridCols n = (n - 1) / gridRows n + 1 := by
    unfold gridCols
    have he : n + gridRows n - 1 = (n - 1) + gridRows n := by omega
    rw [he, Nat.add_div_right _ (by omega)]
  have hle : (n - 1) / gridRows n * gridRows n ≤ n - 1 := Nat.div_mul_le_self _ _
  calc gridRows n * (gridCols n - 1) = gridRows n * ((n - 1) / gridRows n) := by
        rw [hc]; simp
    _ = (n - 1) / gridRows n * gridRows n := Nat.mul_comm _ _
    _ ≤ n - 1 := hle
    _ < n := by omega

/-- The square of `rows - 1` is below `n` (used to show the last row is
never empty). -/
theorem pred_gridRows_sq_lt {n : Nat} (h : 1 ≤ n) :
    (gridRows n - 1) * (gridRows n - 1) < n := by
  obtain ⟨k, hk⟩ : ∃ k, gridRows n = k + 1 :=
    ⟨gridRows n - 1, by have := gridRows_pos h; omega⟩
  have h1 := gridRows_sq_le n
  rw [hk] at h1 ⊢
  simp only [Nat.add_sub_cancel]
  rcases Nat.eq_zero_or_pos k with hz | hp
  · subst hz; simpa using h
  · nlinarith

/-- The last row holds at least one window: `(rows - 1) * cols < n`. -/
theorem pred_gridRows_mul_gridCols_lt {n : Nat} (h : 1 ≤ n) :
    (gridRows n - 1) * gridCols n < n := by
  obtain ⟨k, hk⟩ : ∃ k, gridRows n = k + 1 :=
    ⟨gridRows n - 1, by have := gridRows_pos h; omega⟩
  have hsq := pred_gridRows_sq_lt h
  rw [hk] at hsq
  simp only [Nat.add_sub_cancel] at hsq
  have e1 : gridRows n - 1 = k := by omega
  have e2 : n + gridRows n - 1 = n + k := by omega
  have h1 : k * ((n + k) / (k + 1)) ≤ k * (n + k) / (k + 1) :=
    Nat.mul_div_le_mul_div_assoc _ _ _
  have h2 : k * (n + k) / (k + 1) < n := by
    rw [Nat.div_lt_iff_lt_mul (Nat.succ_pos k)]
    nlinarith
  calc (gridRows n - 1) * gridCols n = k * ((n + k) / (k + 1)) := by
        unfold gridCols
        rw [e1, e2, hk]
    _ ≤ k * (n + k) / (k + 1) := h1
    _ < n := h2

/-- The `min` in `grid_last_row_cols` is a no-op and the value is the
positive count `n - (rows - 1) * cols`. -/
theorem gridLastRowCols_eq {n : Nat} (h : 1 ≤ n) :
    gridLastRowCols n = (n : Int) - ((gridRows n : Int) - 1) * (gridCols n : Int) ∧
      1 ≤ gridLastRowCols n ∧ gridLastRowCols n ≤ (gridCols n : Int) := by
  have hr : 1 ≤ gridRows n := gridRows_pos h
  have h1 := le_gridRows_mul_gridCols h
  have h2 := pred_gridRows_mul_gridCols_lt h
  have hcast : (((gridRows n - 1) * gridCols n : Nat) : Int)
      = ((gridRows n : Int) - 1) * (gridCols n : Int) := by
    push_cast [Nat.cast_sub hr]
    ring
  have key : (n : Int) - ((gridRows n : Int) - 1) * (gridCols n : Int) ≤ (gridCols n : Int) := by
    rw [← hcast]
    have hsm : (gridRows n - 1) * gridCols n = gridRows n * gridCols n - 1 * gridCols n :=
      Nat.sub_mul _ _ _
    omega
  have key2 : 1 ≤ (n : Int) - ((gridRows n : Int) - 1) * (gridCols n : Int) := by
    rw [← hcast]
    omega
  constructor
  · unfold gridLastRowCols
    omega
  · unfold gridLastRowCols
    omega

/-- Natural-number version of the last-row column count. -/
theorem gridLastRowCols_toNat {n : Nat} (h : 1 ≤ n) :
    (gridLastRowCols n).toNat = n - (gridRows n - 1) * gridCols n := by
  obtain ⟨he, h1, _⟩ := gridLastRowCols_eq h
  have hr := gridRows_pos h
  have h2 := pred_gridRows_mul_gridCols_lt h
  have hcast : (((gridRows n - 1) * gridCols n : Nat) : Int)
      = ((gridRows n : Int) - 1) * (gridCols n : Int) := by
    push_cast [Nat.cast_sub hr]
    ring
  omega

theorem layoutAssignments_length {n : Nat} (h : 1 ≤ n) :
    (layoutAssignments n).length = n := by
  have hr : 1 ≤ gridRows n := gridRows_pos h
  have h2 := pred_gridRows_mul_gridCols_lt h
  have hln := gridLastRowCols_toNat h
  obtain ⟨k, hk⟩ : ∃ k, gridRows n = k + 1 := ⟨gridRows n - 1, by omega⟩
  unfold layoutAssignments
  simp only [List.length_flatMap]
  have hcomp : (List.length ∘ fun i => List.map (fun j => (i, j)) (List.range (rowColsAt n i)))
      = fun i => rowColsAt n i := by
    funext i
    simp
  rw [hk, List.range_succ, List.map_append, List.sum_append, hcomp]
  have hmap : (List.range k).map (fun i => rowColsAt n i)
      = List.replicate k (gridCols n) := by
    rw [List.eq_replicate_iff]
    refine ⟨by simp, ?_⟩
    intro b hb
    simp only [List.mem_map, List.mem_range] at hb
    obtain ⟨i, hi, rfl⟩ := hb
    unfold rowColsAt
    rw [if_neg (by omega)]
  rw [hmap, List.sum_replicate, smul_eq_mul]
  have hlast : rowColsAt n k = n - (gridRows n - 1) * gridCols n := by
    unfold rowColsAt
    rw [if_pos (by omega), hln]
  simp only [List.map_cons, List.map_nil, List.sum_cons, List.sum_nil, hlast]
  have e1 : gridRows n - 1 = k := by omega
  rw [e1] at h2 ⊢
  omega

theorem layoutAssignments_nodup (n : Nat) : (layoutAssignments n).Nodup := by
  unfold layoutAssignments
  rw [List.nodup_flatMap]
  constructor
  · intro i _
    exact (List.nodup_range _).map (fun a b hab => by simpa using hab)
  · apply List.pairwise_iff_forall_sublist.mpr
    intro i j hsub
    have hij : i ≠ j := by
      have hnd := (List.nodup_range (gridRows n)).sublist hsub
      simp at hnd
      exact hnd
    simp only [Function.onFun, List.Disjoint]
    intro p hp hq
    simp only [List.mem_map, List.mem_range] at hp hq
    obtain ⟨a, -, rfl⟩ := hp
    obtain ⟨b, -, hb⟩ := hq
    exact hij (congrArg Prod.fst hb).symm

theorem layoutAssignments_bounds (n : Nat) :
    ∀ p ∈ layoutAssignments n, p.1 < gridRows n ∧ p.2 < rowColsAt n p.1 := by
  intro p hp
  unfold layoutAssignments at hp
  simp only [List.mem_flatMap, List.mem_map, List.mem_range] at hp
  obtain ⟨i, hi, j, hj, hij⟩ := hp
  cases hij
  exact ⟨hi, hj⟩

theorem gridRows_five : gridRows 5 = 2 := by
  have h1 : 2 ≤ Nat.sqrt 6 := by
    rw [Nat.le_sqrt]
    norm_num
  have h2 : Nat.sqrt 6 < 3 := by
    rw [Nat.sqrt_lt]
    norm_num
  unfold gridRows
  norm_num

theorem gridCols_five : gridCols 5 = 3 := by
  unfold gridCols
  rw [gridRows_five]

theorem gridLastRowCols_five : gridLastRowCols 5 = 2 := by
  unfold gridLastRowCols
  rw [gridRows_five, gridCols_five]
  decide

theorem layoutAssignments_five :
    layoutAssignments 5 = [(0, 0), (0, 1), (0, 2), (1, 0), (1, 1)] := by
  unfold layoutAssignments rowColsAt
  rw [gridRows_five]
  simp only [gridCols_five, gridLastRowCols_five]
  decide

/-- C1: for every window count `N ≥ 1`, `layout_slots` computes
`rows = ⌊√(N+1)⌋` (characterized by `rows² ≤ N+1 < (rows+1)²`),
`cols = ⌈N/rows⌉` (the least count with `rows·cols ≥ N`), and
`last_row_cols = N − (rows−1)·cols ≥ 1` (the `min` in the source is a
no-op), and its slot loop hands the `N` sorted windows, row by row,
exactly one unique in-bounds `(row, col)` each — `cols` per row, the
last row holding `last_row_cols`; for `N = 5` this yields `rows = 2`,
`cols = 3`, `last_row_cols = 2`, the fifth window landing at `(1, 1)`. -/
theorem c1_grid_partition (n : Nat) (h : 1 ≤ n) :
    (gridRows n * gridRows n ≤ n + 1 ∧ n + 1 < (gridRows n + 1) * (gridRows n + 1)) ∧
    (n ≤ gridRows n * gridCols n ∧ gridRows n * (gridCols n - 1) < n) ∧
    (gridLastRowCols n = (n : Int) - ((gridRows n : Int) - 1) * (gridCols n : Int) ∧
      1 ≤ gridLastRowCols n) ∧
    ((layoutAssignments n).length = n ∧ (layoutAssignments n).Nodup ∧
      ∀ p ∈ layoutAssignments n, p.1 < gridRows n ∧ p.2 < rowColsAt n p.1) ∧
    (gridRows 5 = 2 ∧ gridCols 5 = 3 ∧ gridLastRowCols 5 = 2 ∧
      layoutAssignments 5 = [(0, 0), (0, 1), (0, 2), (1, 0), (1, 1)]) :=
  ⟨⟨gridRows_sq_le n, lt_gridRows_succ_sq n⟩,
    ⟨le_gridRows_mul_gridCols h, gridRows_mul_pred_gridCols_lt h⟩,
    ⟨(gridLastRowCols_eq h).1, (gridLastRowCols_eq h).2.1⟩,
    ⟨layoutAssignments_length h, layoutAssignments_nodup n, layoutAssignments_bounds n⟩,
    gridRows_five, gridCols_five, gridLastRowCols_five, layoutAssignments_five⟩

theorem c1_grid_partition_witness :
    (layoutAssignments 5).length = 5 ∧
      layoutAssignments 5 = [(0, 0), (0, 1), (0, 2), (1, 0), (1, 1)] :=
  ⟨(c1_grid_partition 5 (by decide)).2.2.2.1.1,
    (c1_grid_partition 5 (by decide)).2.2.2.2.2.2.2⟩

/-! ## Navigation controller (process_key, scale.cpp lines 548-627)

The directional part of `process_key`: the switch adjusts `row`/`col`,
the short-last-row remap adjusts `col` when entering or leaving the
last row, then the wraparound clamps land on a valid cell.  The float
arithmetic of the remap is modelled exactly over `ℚ`; a C assignment of
a floating value to `int` truncates toward zero (`ctrunc`). -/

/-- C truncation of a rational toward zero (float-to-int conversion). -/
def ctrunc (q : ℚ) : Int := if 0 ≤ q then ⌊q⌋ else ⌈q⌉

/-- `std::clamp(v, lo, hi)`. -/
def cclamp (v lo hi : Int) : Int := min (max v lo) hi

/-- The grid-dimension fields (`grid_rows`, `grid_cols`,
`grid_last_row_cols`) read by `process_key`, all C `int`s. -/
structure GridDims where
  rows : Int
  cols : Int
  last : Int
deriving DecidableEq, Repr

/-- The four directional keys handled by the navigation switch. -/
inductive NavKey where
  | up
  | down
  | left
  | right
deriving DecidableEq, Repr

/-- The row adjustment of the key switch (KEY_UP / KEY_DOWN). -/
def navSwitchRow (k : NavKey) (row : Int) : Int :=
  match k with
  | .up => row - 1
  | .down => row + 1
  | _ => row

/-- The column adjustment of the key switch (KEY_LEFT / KEY_RIGHT). -/
def navSwitchCol (k : NavKey) (col : Int) : Int :=
  match k with
  | .left => col - 1
  | .right => col + 1
  | _ => col

/-- The short-last-row proportional column remap (lines 586-605),
applied after the switch when moving into or out of the last row. -/
def navRemap (g : GridDims) (k : NavKey) (row1 col1 : Int) : Int :=
  if 1 < g.rows ∧ 1 < g.cols ∧ 1 < g.last then
    if (k = .down ∧ row1 = g.rows - 1) ∨ (k = .up ∧ row1 = -1) then
      cclamp (ctrunc ((col1 : ℚ) / ((g.cols : ℚ) - 1) * ((g.last : ℚ) - 1)))
        0 (g.last - 1)
    else if (k = .up ∧ row1 = g.rows - 2) ∨ (k = .down ∧ row1 = g.rows) then
      cclamp (ctrunc (((col1 : ℚ) + 1/2) / (g.last : ℚ) * (g.cols : ℚ)))
        0 (g.cols - 1)
    else col1
  else col1

/-- Row wraparound (lines 607-615): the two sequential `if`s. -/
def navWrapRow (g : GridDims) (r : Int) : Int :=
  let r2 : Int := if r < 0 then g.rows - 1 else r
  if g.rows ≤ r2 then 0 else r2

/-- The column count of the destination row (lines 617-618). -/
def rowColCount (g : GridDims) (r : Int) : Int :=
  if r = g.rows - 1 then g.last else g.cols

/-- Column wraparound (lines 619-627): the two sequential `if`s. -/
def navWrapCol (crc c : Int) : Int :=
  let c2 : Int := if c < 0 then crc - 1 else c
  if crc ≤ c2 then 0 else c2

/-- The directional-navigation core of `process_key` (lines 548-627):
key switch, short-last-row column remap, row/column wraparound. -/
def navStep (g : GridDims) (k : NavKey) (row col : Int) : Int × Int :=
  let row1 : Int := navSwitchRow k row
  let col1 : Int := navSwitchCol k col
  let col2 : Int := navRemap g k row1 col1
  let row3 : Int := navWrapRow g row1
  (row3, navWrapCol (rowColCount g row3) col2)

/-- The column remap asserted by the claim for moving into the short
last row: `new_col = round(old_col × last_row_cols / cols)` (round half
up). -/
def claimRemapInto (col last cols : Int) : Int :=
  ⌊(col : ℚ) * (last : ℚ) / (cols : ℚ) + 1/2⌋

/-- The remap the code applies when entering the short last row, after
removing the (inactive) clamp: `⌊col·(last−1)/(cols−1)⌋`. -/
theorem inMap_eq (g : GridDims) (hc : 1 < g.cols) (hl : 1 < g.last)
    (col : Int) (h0 : 0 ≤ col) (hcol : col < g.cols) :
    cclamp (ctrunc ((col : ℚ) / ((g.cols : ℚ) - 1) * ((g.last : ℚ) - 1)))
        0 (g.last - 1)
      = ⌊(col : ℚ) * ((g.last : ℚ) - 1) / ((g.cols : ℚ) - 1)⌋ ∧
    0 ≤ ⌊(col : ℚ) * ((g.last : ℚ) - 1) / ((g.cols : ℚ) - 1)⌋ ∧
    ⌊(col : ℚ) * ((g.last : ℚ) - 1) / ((g.cols : ℚ) - 1)⌋ ≤ g.last - 1 := by
  have hcq : (0 : ℚ) < (g.cols : ℚ) - 1 := by
    have : (1 : ℚ) < (g.cols : ℚ) := by exact_mod_cast hc
    linarith
  have hlq : (0 : ℚ) ≤ (g.last : ℚ) - 1 := by
    have : (1 : ℚ) < (g.last : ℚ) := by exact_mod_cast hl
    linarith
  have h0q : (0 : ℚ) ≤ (col : ℚ) := by exact_mod_cast h0
  have hq : (col : ℚ) / ((g.cols : ℚ) - 1) * ((g.last : ℚ) - 1)
      = (col : ℚ) * ((g.last : ℚ) - 1) / ((g.cols : ℚ) - 1) := by
    ring
  set q : ℚ := (col : ℚ) * ((g.last : ℚ) - 1) / ((g.cols : ℚ) - 1) with hqdef
  have hqnn : 0 ≤ q := by positivity
  have hqub : q ≤ (g.last : ℚ) - 1 := by
    rw [hqdef, div_le_iff₀ hcq]
    have hcle : (col : ℚ) ≤ (g.cols : ℚ) - 1 := by
      have : col ≤ g.cols - 1 := by omega
      exact_mod_cast (by push_cast; exact_mod_cast this : (col : ℚ) ≤ ((g.cols - 1 : Int) : ℚ))
    nlinarith
  have hfl0 : 0 ≤ ⌊q⌋ := Int.floor_nonneg.mpr hqnn
  have hflub : ⌊q⌋ ≤ g.last - 1 := by
    have : q ≤ ((g.last - 1 : Int) : ℚ) := by push_cast; linarith
    have h2 := Int.floor_le_floor this
    rwa [Int.floor_intCast] at h2
  refine ⟨?_, hfl0, hflub⟩
  rw [hq]
  unfold ctrunc cclamp
  rw [if_pos hqnn, max_eq_left hfl0, min_eq_left hflub]

/-- The remap the code applies when leaving the short last row, after
removing the (inactive) clamp: `⌊(col+1/2)·cols/last⌋`. -/
theorem outMap_eq (g : GridDims) (hc : 1 < g.cols) (hl : 0 < g.last)
    (col : Int) (h0 : 0 ≤ col) (hcol : col < g.last) :
    cclamp (ctrunc (((col : ℚ) + 1/2) / (g.last : ℚ) * (g.cols : ℚ)))
        0 (g.cols - 1)
      = ⌊((col : ℚ) + 1/2) * (g.cols : ℚ) / (g.last : ℚ)⌋ ∧
    0 ≤ ⌊((col : ℚ) + 1/2) * (g.cols : ℚ) / (g.last : ℚ)⌋ ∧
    ⌊((col : ℚ) + 1/2) * (g.cols : ℚ) / (g.last : ℚ)⌋ ≤ g.cols - 1 := by
  have hlq : (0 : ℚ) < (g.last : ℚ) := by exact_mod_cast hl
  have hcq : (0 : ℚ) < (g.cols : ℚ) := by
    have : (1 : ℚ) < (g.cols : ℚ) := by exact_mod_cast hc
    linarith
  have h0q : (0 : ℚ) ≤ (col : ℚ) := by exact_mod_cast h0
  have hq : ((col : ℚ) + 1/2) / (g.last : ℚ) * (g.cols : ℚ)
      = ((col : ℚ) + 1/2) * (g.cols : ℚ) / (g.last : ℚ) := by
    ring
  set q : ℚ := ((col : ℚ) + 1/2) * (g.cols : ℚ) / (g.last : ℚ) with hqdef
  have hqnn : 0 ≤ q := by positivity
  have hqub : q < (g.cols : ℚ) := by
    rw [hqdef, div_lt_iff₀ hlq]
    have hcle : (col : ℚ) + 1/2 < (g.last : ℚ) := by
      have hc2 : (col : ℚ) ≤ ((g.last - 1 : Int) : ℚ) := by
        exact_mod_cast (by omega : col ≤ g.last - 1)
      push_cast at hc2
      linarith
    nlinarith
  have hfl0 : 0 ≤ ⌊q⌋ := Int.floor_nonneg.mpr hqnn
  have hflub : ⌊q⌋ ≤ g.cols - 1 := by
    have h2 : ⌊q⌋ < g.cols := Int.floor_lt.mpr (by exact_mod_cast hqub)
    omega
  refine ⟨?_, hfl0, hflub⟩
  rw [hq]
  unfold ctrunc cclamp
  rw [if_pos hqnn, max_eq_left hfl0, min_eq_left hflub]

theorem navStep_eq (g : GridDims) (k : NavKey) (row col : Int) :
    navStep g k row col
      = (navWrapRow g (navSwitchRow k row),
         navWrapCol (rowColCount g (navWrapRow g (navSwitchRow k row)))
           (navRemap g k (navSwitchRow k row) (navSwitchCol k col))) := rfl

theorem navRemap_skip (g : GridDims) (k : NavKey) (row1 col1 : Int)
    (hc1 : ¬((k = .down ∧ row1 = g.rows - 1) ∨ (k = .up ∧ row1 = -1)))
    (hc2 : ¬((k = .up ∧ row1 = g.rows - 2) ∨ (k = .down ∧ row1 = g.rows))) :
    navRemap g k row1 col1 = col1 := by
  unfold navRemap
  split_ifs <;> tauto

theorem navWrapRow_id (g : GridDims) (r : Int) (h1 : 0 ≤ r) (h2 : r < g.rows) :
    navWrapRow g r = r := by
  unfold navWrapRow
  dsimp only
  split_ifs <;> omega

theorem navWrapRow_neg (g : GridDims) (r : Int) (h : r < 0) :
    navWrapRow g r = g.rows - 1 := by
  unfold navWrapRow
  dsimp only
  split_ifs <;> omega

theorem navWrapRow_over (g : GridDims) (r : Int) (h1 : 0 ≤ r) (h2 : g.rows ≤ r) :
    navWrapRow g r = 0 := by
  unfold navWrapRow
  dsimp only
  split_ifs <;> omega

theorem navWrapCol_id (crc c : Int) (h1 : 0 ≤ c) (h2 : c < crc) :
    navWrapCol crc c = c := by
  unfold navWrapCol
  dsimp only
  split_ifs <;> omega

theorem rowColCount_mid (g : GridDims) (r : Int) (h : r ≠ g.rows - 1) :
    rowColCount g r = g.cols := if_neg h

theorem rowColCount_last (g : GridDims) (r : Int) (h : r = g.rows - 1) :
    rowColCount g r = g.last := if_pos h

/-- Up one row, strictly inside the grid: no remap, no wraparound. -/
theorem navStep_up_mid (g : GridDims) (row col : Int) (h1 : 0 < row)
    (h2 : row < g.rows - 1) (h3 : 0 ≤ col) (h4 : col < g.cols) :
    navStep g .up row col = (row - 1, col) := by
  rw [navStep_eq]
  have hR : navSwitchRow .up row = row - 1 := rfl
  have hC : navSwitchCol .up col = col := rfl
  rw [hR, hC, navRemap_skip g _ _ _ (by simp; omega) (by simp; omega),
    navWrapRow_id g _ (by omega) (by omega),
    rowColCount_mid g _ (by omega), navWrapCol_id _ _ h3 h4]

/-- Down one row, strictly inside the grid: no remap, no wraparound. -/
theorem navStep_down_mid (g : GridDims) (row col : Int) (h1 : 0 ≤ row)
    (h2 : row < g.rows - 2) (h3 : 0 ≤ col) (h4 : col < g.cols) :
    navStep g .down row col = (row + 1, col) := by
  rw [navStep_eq]
  have hR : navSwitchRow .down row = row + 1 := rfl
  have hC : navSwitchCol .down col = col := rfl
  rw [hR, hC, navRemap_skip g _ _ _ (by simp; omega) (by simp; omega),
    navWrapRow_id g _ (by omega) (by omega),
    rowColCount_mid g _ (by omega), navWrapCol_id _ _ h3 h4]

/-- Left one column, strictly inside a non-last row. -/
theorem navStep_left_mid (g : GridDims) (row col : Int) (h1 : 0 ≤ row)
    (h2 : row < g.rows - 1) (h3 : 0 < col) (h4 : col < g.cols) :
    navStep g .left row col = (row, col - 1) := by
  rw [navStep_eq]
  have hR : navSwitchRow .left row = row := rfl
  have hC : navSwitchCol .left col = col - 1 := rfl
  rw [hR, hC, navRemap_skip g _ _ _ (by simp) (by simp),
    navWrapRow_id g _ (by omega) (by omega),
    rowColCount_mid g _ (by omega), navWrapCol_id _ _ (by omega) (by omega)]

/-- Right one column, strictly inside a non-last row. -/
theorem navStep_right_mid (g : GridDims) (row col : Int) (h1 : 0 ≤ row)
    (h2 : row < g.rows - 1) (h3 : 0 ≤ col) (h4 : col < g.cols - 1) :
    navStep g .right row col = (row, col + 1) := by
  rw [navStep_eq]
  have hR : navSwitchRow .right row = row := rfl
  have hC : navSwitchCol .right col = col + 1 := rfl
  rw [hR, hC, navRemap_skip g _ _ _ (by simp) (by simp),
    navWrapRow_id g _ (by omega) (by omega),
    rowColCount_mid g _ (by omega), navWrapCol_id _ _ (by omega) (by omega)]

/-- Down from the second-to-last row into the short last row. -/
theorem navStep_down_into (g : GridDims) (hr : 1 < g.rows) (hc : 1 < g.cols)
    (hl : 1 < g.last) (col : Int) (h0 : 0 ≤ col) (hcol : col < g.cols) :
    navStep g .down (g.rows - 2) col
      = (g.rows - 1, ⌊(col : ℚ) * ((g.last : ℚ) - 1) / ((g.cols : ℚ) - 1)⌋) := by
  obtain ⟨hin, hfl0, hflub⟩ := inMap_eq g hc hl col h0 hcol
  rw [navStep_eq]
  have hR : navSwitchRow .down (g.rows - 2) = g.rows - 2 + 1 := rfl
  have hC : navSwitchCol .down col = col := rfl
  have hrm : navRemap g .down (g.rows - 2 + 1) col
      = ⌊(col : ℚ) * ((g.last : ℚ) - 1) / ((g.cols : ℚ) - 1)⌋ := by
    unfold navRemap
    rw [if_pos ⟨hr, hc, hl⟩, if_pos (Or.inl ⟨rfl, by omega⟩), hin]
  rw [hR, hC, hrm, navWrapRow_id g _ (by omega) (by omega)]
  have he : g.rows - 2 + 1 = g.rows - 1 := by omega
  rw [he, rowColCount_last g _ rfl, navWrapCol_id _ _ hfl0 (by omega)]

/-- Up from row 0, wrapping around into the short last row. -/
theorem navStep_up_wrap_into (g : GridDims) (hr : 1 < g.rows) (hc : 1 < g.cols)
    (hl : 1 < g.last) (col : Int) (h0 : 0 ≤ col) (hcol : col < g.cols) :
    navStep g .up 0 col
      = (g.rows - 1, ⌊(col : ℚ) * ((g.last : ℚ) - 1) / ((g.cols : ℚ) - 1)⌋) := by
  obtain ⟨hin, hfl0, hflub⟩ := inMap_eq g hc hl col h0 hcol
  rw [navStep_eq]
  have hR : navSwitchRow .up 0 = 0 - 1 := rfl
  have hC : navSwitchCol .up col = col := rfl
  have hrm : navRemap g .up (0 - 1) col
      = ⌊(col : ℚ) * ((g.last : ℚ) - 1) / ((g.cols : ℚ) - 1)⌋ := by
    unfold navRemap
    rw [if_pos ⟨hr, hc, hl⟩, if_pos (Or.inr ⟨rfl, by omega⟩), hin]
  rw [hR, hC, hrm, navWrapRow_neg g _ (by omega),
    rowColCount_last g _ rfl, navWrapCol_id _ _ hfl0 (by omega)]

/-- Up out of the short last row into the row above it. -/
theorem navStep_up_out (g : GridDims) (hr : 1 < g.rows) (hc : 1 < g.cols)
    (hl : 1 < g.last) (col : Int) (h0 : 0 ≤ col) (hcol : col < g.last) :
    navStep g .up (g.rows - 1) col
      = (g.rows - 2, ⌊((col : ℚ) + 1/2) * (g.cols : ℚ) / (g.last : ℚ)⌋) := by
  obtain ⟨hout, hfl0, hflub⟩ := outMap_eq g hc (by omega) col h0 hcol
  rw [navStep_eq]
  have hR : navSwitchRow .up (g.rows - 1) = g.rows - 1 - 1 := rfl
  have hC : navSwitchCol .up col = col := rfl
  have hrm : navRemap g .up (g.rows - 1 - 1) col
      = ⌊((col : ℚ) + 1/2) * (g.cols : ℚ) / (g.last : ℚ)⌋ := by
    unfold navRemap
    rw [if_pos ⟨hr, hc, hl⟩, if_neg (by simp; omega),
      if_pos (Or.inl ⟨rfl, by omega⟩), hout]
  rw [hR, hC, hrm, navWrapRow_id g _ (by omega) (by omega)]
  have he : g.rows - 1 - 1 = g.rows - 2 := by omega
  rw [he, rowColCount_mid g _ (by omega), navWrapCol_id _ _ hfl0 (by omega)]

/-- Down from the short last row, wrapping around to row 0. -/
theorem navStep_down_wrap_out (g : GridDims) (hr : 1 < g.rows) (hc : 1 < g.cols)
    (hl : 1 < g.last) (col : Int) (h0 : 0 ≤ col) (hcol : col < g.last) :
    navStep g .down (g.rows - 1) col
      = (0, ⌊((col : ℚ) + 1/2) * (g.cols : ℚ) / (g.last : ℚ)⌋) := by
  obtain ⟨hout, hfl0, hflub⟩ := outMap_eq g hc (by omega) col h0 hcol
  rw [navStep_eq]
  have hR : navSwitchRow .down (g.rows - 1) = g.rows - 1 + 1 := rfl
  have hC : navSwitchCol .down col = col := rfl
  have hrm : navRemap g .down (g.rows - 1 + 1) col
      = ⌊((col : ℚ) + 1/2) * (g.cols : ℚ) / (g.last : ℚ)⌋ := by
    unfold navRemap
    rw [if_pos ⟨hr, hc, hl⟩, if_neg (by simp; omega),
      if_pos (Or.inr ⟨rfl, by omega⟩), hout]
  rw [hR, hC, hrm, navWrapRow_over g _ (by omega) (by omega),
    rowColCount_mid g _ (by omega), navWrapCol_id _ _ hfl0 (by omega)]

/-- C5 counterexample: in the grid of 5 windows (`rows = 2`, `cols = 3`,
`last_row_cols = 2`), pressing Down from cell `(0, 1)` moves focus to
cell `(1, 0)`, but the claim's formula `round(old_col·last/cols)` gives
column `round(2/3) = 1` — the code's remap is not the claimed one. -/
theorem c5_remap_counterexample :
    navStep ⟨2, 3, 2⟩ .down 0 1 = (1, 0) ∧ claimRemapInto 1 2 3 = 1 ∧
      (navStep ⟨2, 3, 2⟩ .down 0 1).2 ≠ claimRemapInto 1 2 3 := by
  refine ⟨?_, ?_, ?_⟩ <;>
    norm_num [navStep, navSwitchRow, navSwitchCol, navRemap, navWrapRow,
      rowColCount, navWrapCol, ctrunc, cclamp, claimRemapInto]

/-- C5 (amended): in a grid with more than one row, more than one
column and `last_row_cols > 1`, when directional navigation moves focus
into the short last row (Down from the second-to-last row, or Up from
row 0 wrapping around) the new column is
`⌊old_col·(last_row_cols−1)/(cols−1)⌋`, and when it moves focus out of
the short last row (Up from the last row, or Down from it wrapping to
row 0) the new column is `⌊(old_col+1/2)·cols/last_row_cols⌋`; both
remaps land inside the destination row's valid column range, the
clamps of the source being no-ops for in-range starting columns. -/
theorem c5_short_row_remap (g : GridDims) (hr : 1 < g.rows)
    (hc : 1 < g.cols) (hl : 1 < g.last) :
    (∀ col : Int, 0 ≤ col → col < g.cols →
      navStep g .down (g.rows - 2) col
          = (g.rows - 1, ⌊(col : ℚ) * ((g.last : ℚ) - 1) / ((g.cols : ℚ) - 1)⌋) ∧
      navStep g .up 0 col
          = (g.rows - 1, ⌊(col : ℚ) * ((g.last : ℚ) - 1) / ((g.cols : ℚ) - 1)⌋) ∧
      0 ≤ ⌊(col : ℚ) * ((g.last : ℚ) - 1) / ((g.cols : ℚ) - 1)⌋ ∧
      ⌊(col : ℚ) * ((g.last : ℚ) - 1) / ((g.cols : ℚ) - 1)⌋ < g.last) ∧
    (∀ col : Int, 0 ≤ col → col < g.last →
      navStep g .up (g.rows - 1) col
          = (g.rows - 2, ⌊((col : ℚ) + 1/2) * (g.cols : ℚ) / (g.last : ℚ)⌋) ∧
      navStep g .down (g.rows - 1) col
          = (0, ⌊((col : ℚ) + 1/2) * (g.cols : ℚ) / (g.last : ℚ)⌋) ∧
      0 ≤ ⌊((col : ℚ) + 1/2) * (g.cols : ℚ) / (g.last : ℚ)⌋ ∧
      ⌊((col : ℚ) + 1/2) * (g.cols : ℚ) / (g.last : ℚ)⌋ < g.cols) := by
  constructor
  · intro col h0 hcol
    obtain ⟨-, hfl0, hflub⟩ := inMap_eq g hc hl col h0 hcol
    exact ⟨navStep_down_into g hr hc hl col h0 hcol,
      navStep_up_wrap_into g hr hc hl col h0 hcol, hfl0, by omega⟩
  · intro col h0 hcol
    obtain ⟨-, hfl0, hflub⟩ := outMap_eq g hc (by omega) col h0 hcol
    exact ⟨navStep_up_out g hr hc hl col h0 hcol,
      navStep_down_wrap_out g hr hc hl col h0 hcol, hfl0, by omega⟩

theorem c5_short_row_remap_witness :
    navStep ⟨2, 3, 2⟩ .down (2 - 2) 1 = (2 - 1, ⌊(1 : ℚ) * ((2 : ℚ) - 1) / ((3 : ℚ) - 1)⌋) :=
  ((c5_short_row_remap ⟨2, 3, 2⟩ (by decide) (by decide) (by decide)).1
    1 (by decide) (by decide)).1

/-- C6: from any non-edge cell (`0 < row < rows−1`,
`0 < col <` that row's column count `− 1`; a non-last row has
`grid_cols` columns) pressing Up then Down returns focus to the
original `(row, col)`, and pressing Left then Right likewise. -/
theorem c6_round_trip (g : GridDims) (row col : Int) (h1 : 0 < row)
    (h2 : row < g.rows - 1) (h3 : 0 < col) (h4 : col < g.cols - 1) :
    navStep g .down (navStep g .up row col).1 (navStep g .up row col).2
        = (row, col) ∧
    navStep g .right (navStep g .left row col).1 (navStep g .left row col).2
        = (row, col) := by
  constructor
  · rw [navStep_up_mid g row col h1 h2 (by omega) (by omega)]
    dsimp only
    rw [navStep_down_mid g (row - 1) col (by omega) (by omega) (by omega) (by omega)]
    have e : row - 1 + 1 = row := by omega
    rw [e]
  · rw [navStep_left_mid g row col (by omega) h2 h3 (by omega)]
    dsimp only
    rw [navStep_right_mid g row (col - 1) (by omega) h2 (by omega) (by omega)]
    have e : col - 1 + 1 = col := by omega
    rw [e]

theorem c6_round_trip_witness :
    navStep ⟨3, 3, 2⟩ .down (navStep ⟨3, 3, 2⟩ .up 1 1).1
        (navStep ⟨3, 3, 2⟩ .up 1 1).2 = (1, 1) ∧
    navStep ⟨3, 3, 2⟩ .right (navStep ⟨3, 3, 2⟩ .left 1 1).1
        (navStep ⟨3, 3, 2⟩ .left 1 1).2 = (1, 1) :=
  c6_round_trip ⟨3, 3, 2⟩ 1 1 (by decide) (by decide) (by decide) (by decide)

/-! ## Animation engine (wayfire core `wf::animation`, not under src/)

Modelled from the spec: §4.1 describes the animation primitives that
live in wayfire core headers — a transition tracks a start and a target
value; progress is the clamped ratio elapsed/duration fed through a
monotonic easing (modelled as the identity, which the spec permits);
`is_running()` holds while elapsed < duration; `start` resets the
shared clock.  The concrete easing curve is irrelevant here: every
sampling fact the claims use is at progress 0 or about targets. -/

/-- A `timed_transition_t`: start value `a`, target value `b`. -/
structure Transition where
  a : ℚ
  b : ℚ
deriving DecidableEq, Repr

/-- Interpolated value at progress `p` (monotonic easing = identity). -/
def Transition.sample (t : Transition) (p : ℚ) : ℚ := t.a + (t.b - t.a) * p

/-- The `scale_animation_t` group: four transitions sharing one
`duration_t` clock (elapsed/duration in milliseconds). -/
structure ScaleAnim where
  scale_x : Transition
  scale_y : Transition
  translation_x : Transition
  translation_y : Transition
  elapsed : Nat
  duration : Nat
deriving DecidableEq, Repr

/-- Clamped progress of the shared clock. -/
def ScaleAnim.progressQ (g : ScaleAnim) : ℚ :=
  if g.duration = 0 then 1 else min 1 ((g.elapsed : ℚ) / (g.duration : ℚ))

def ScaleAnim.running (g : ScaleAnim) : Bool := g.elapsed < g.duration

/-- A `simple_animation_t` (the fade): one transition with its own
clock. -/
structure FadeAnim where
  a : ℚ
  b : ℚ
  elapsed : Nat
  duration : Nat
deriving DecidableEq, Repr

def FadeAnim.progressQ (f : FadeAnim) : ℚ :=
  if f.duration = 0 then 1 else min 1 ((f.elapsed : ℚ) / (f.duration : ℚ))

def FadeAnim.running (f : FadeAnim) : Bool := f.elapsed < f.duration

/-- The fade's current sampled value. -/
def FadeAnim.current (f : FadeAnim) : ℚ := f.a + (f.b - f.a) * f.progressQ

/-- `simple_animation_t::animate(start, end)`: set the transition and
restart the clock. -/
def FadeAnim.animate (f : FadeAnim) (x y : ℚ) : FadeAnim :=
  { f with a := x, b := y, elapsed := 0 }

/-! ## Transformer and slot records (scale.cpp lines 55-75) -/

/-- The `wf_scale` transformer (a `wf::view_2D`): the five values the
render pass reads.  A freshly constructed `view_2D` holds the identity
transform — scale 1, translation 0, alpha 1 (spec §4.2 step 6 calls
this the original placement). -/
structure Transformer where
  scale_x : ℚ
  scale_y : ℚ
  translation_x : ℚ
  translation_y : ℚ
  alpha : ℚ
deriving DecidableEq, Repr

def Transformer.initial : Transformer := ⟨1, 1, 0, 0, 1⟩

/-- `view_scale_data`: one slot record per participating window.  The
`transformer` pointer is null (`none`) until `add_transformer` runs;
`row`/`col` are uninitialized in C++ (modelled as 0). -/
structure ViewScaleData where
  row : Int
  col : Int
  transformer : Option Transformer
  fade_animation : FadeAnim
  animation : ScaleAnim
deriving DecidableEq, Repr

/-- The record `std::map::operator[]` default-constructs for an absent
key: null transformer, idle animations; the scale animation's duration
comes from the `scale/duration` option. -/
def defaultSlot (dur : Nat) : ViewScaleData :=
  ⟨0, 0, none, ⟨0, 0, 0, 0⟩, ⟨⟨0, 0⟩, ⟨0, 0⟩, ⟨0, 0⟩, ⟨0, 0⟩, dur, dur⟩⟩

/-! ## The slot map (`std::map<wayfire_view, view_scale_data>`)

Modelled as an association list with unique keys.  `std::map` iterates
in key order while the list iterates in insertion order; every property
proved below is insensitive to the iteration order of the map. -/

abbrev SlotMap := List (View × ViewScaleData)

def lookupSlot : SlotMap → View → Option ViewScaleData
  | [], _ => none
  | (w, d) :: rest, v => if w = v then some d else lookupSlot rest v

def setSlot : SlotMap → View → ViewScaleData → SlotMap
  | [], v, d => [(v, d)]
  | (w, d0) :: rest, v, d =>
      if w = v then (v, d) :: rest else (w, d0) :: setSlot rest v d

def eraseSlot : SlotMap → View → SlotMap
  | [], _ => []
  | (w, d) :: rest, v =>
      if w = v then eraseSlot rest v else (w, d) :: eraseSlot rest v

/-- Read-only host oracles: option values, the window tree, geometry,
the outcome of host requests during the handler under study.  `eligible`
is what `get_views()` returns at that moment. -/
structure HostEnv where
  parent : View → Option View
  children : View → List View
  wm_geometry : View → Rect
  workarea : Rect
  spacing : Int
  duration : Nat
  interact : Bool
  middle_click_close : Bool
  allow_scale_zoom : Bool
  inactive_alpha : ℚ
  eligible : List View
  current_workspace : Pt
  view_workspace : View → Pt
  activate_plugin_ok : Bool
  grab_ok : Bool
  refocus_fallback : Option View
  view_at_cursor : Option View
  keyboard_modifiers : Bool
  role_toplevel : View → Bool
  layer_ok : View → Bool

/-- Convenience accessors over the map with `operator[]` semantics. -/
def getSlot (env : HostEnv) (m : SlotMap) (v : View) : ViewScaleData :=
  (lookupSlot m v).getD (defaultSlot env.duration)

/-- `std::map::operator[]` as a map transformer: inserts a
default-constructed record when the key is absent. -/
def indexSlot (env : HostEnv) (m : SlotMap) (v : View) : SlotMap :=
  match lookupSlot m v with
  | some _ => m
  | none => setSlot m v (defaultSlot env.duration)

/-- Read-modify-write through `operator[]`. -/
def modifySlot (env : HostEnv) (m : SlotMap) (v : View)
    (f : ViewScaleData → ViewScaleData) : SlotMap :=
  setSlot m v (f (getSlot env m v))

/-- The plugin state (fields of `wayfire_scale`, scale.cpp lines
77-125) together with the host-side state it manipulates: the set of
views carrying the "scale" transformer, the active view, the current
workspace, the plugin/grab status, and close requests issued. -/
structure S where
  grid_rows : Int
  grid_cols : Int
  grid_last_row_cols : Int
  initial_workspace : Pt
  input_release_impending : Bool
  active : Bool
  hook_set : Bool
  button_connected : Bool
  initial_focus_view : Option View
  current_focus_view : Option View
  scale_data : SlotMap
  all_workspaces : Bool
  capabilities_grab : Bool
  host_transforms : List View
  host_focus : Option View
  host_workspace : Pt
  plugin_active : Bool
  grabbed : Bool
  close_requested : List View
deriving DecidableEq, Repr

/-! ## Operations (scale.cpp) -/

/-- set_hook (lines 1448-1459): attach the pre/post render hooks once. -/
def set_hook (s : S) : S :=
  if s.hook_set then s else { s with hook_set := true }

/-- unset_hook (lines 1462-1472): detach the render hooks. -/
def unset_hook (s : S) : S :=
  if ¬s.hook_set then s else { s with hook_set := false }

/-- `output->focus_view(v, true)`: the host makes `v` active. -/
def focus_view (s : S) (v : Option View) : S := { s with host_focus := v }

/-- select_view (lines 345-354): switch to the view's main workspace. -/
def select_view (env : HostEnv) (s : S) (v : Option View) : S :=
  match v with
  | none => s
  | some w => { s with host_workspace := env.view_workspace w }

/-- scale_view (lines 769-788): membership in `get_views()`. -/
def scale_view (env : HostEnv) (v : View) : Bool := env.eligible.contains v

/-- add_transformer (lines 157-177): refuse if the named transformer is
already attached; otherwise create it, store the pointer in the slot
record (`operator[]` inserts the record if needed) and attach it. -/
def add_transformer (env : HostEnv) (v : View) (s : S) : Bool × S :=
  if v ∈ s.host_transforms then (false, s)
  else
    let m := modifySlot env s.scale_data v
      (fun d => { d with transformer := some Transformer.initial })
    (true, { s with scale_data := m, host_transforms := v :: s.host_transforms })

/-- pop_transformer (lines 180-188): detach the named transformer. -/
def pop_transformer (v : View) (s : S) : S :=
  { s with host_transforms := s.host_transforms.filter (fun w => w != v) }

/-- remove_transformers (lines 191-200): pop the transformer from every
slot view and its enumerated (view + children) views. -/
def remove_transformers (env : HostEnv) (s : S) : S :=
  s.scale_data.foldl
    (fun t p => (env.children p.1).foldl
      (fun t' c => pop_transformer c t') (pop_transformer p.1 t)) s

/-- check_focus_view (lines 368-379). -/
def check_focus_view (s : S) (v : View) : S :=
  let s1 : S := if some v = s.current_focus_view
    then { s with current_focus_view := s.host_focus } else s
  if some v = s1.initial_focus_view
    then { s1 with initial_focus_view := none } else s1

/-- remove_view (lines 382-398): drop the slot record and transformer
of the view and of each of its children. -/
def remove_view (env : HostEnv) (v : View) (s : S) : S :=
  let s1 := check_focus_view s v
  let s2 := pop_transformer v s1
  let s3 : S := { s2 with scale_data := eraseSlot s2.scale_data v }
  (env.children v).foldl (fun t c =>
    let t1 := check_focus_view t c
    let t2 := pop_transformer c t1
    { t2 with scale_data := eraseSlot t2.scale_data c }) s3

/-- fade_in (lines 311-325): animate the view's alpha to 1 and recurse
into the first child; `scale_data[view]` inserts a default record for
an absent key, and a null transformer aborts.  Recursion along the
first-child chain is bounded by `fuel` (the window tree is at most two
levels deep, spec §3). -/
def fade_in (env : HostEnv) : Nat → Option View → S → S
  | 0, _, s => s
  | _ + 1, none, s => s
  | fuel + 1, some v, s =>
      let m := indexSlot env s.scale_data v
      let s1 : S := { s with scale_data := m }
      match (getSlot env m v).transformer with
      | none => s1
      | some tr =>
          let s2 := set_hook s1
          let s3 : S := { s2 with scale_data := (modifySlot env s2.scale_data v
              (fun d => { d with fade_animation := d.fade_animation.animate tr.alpha 1 })) }
          match env.children v with
          | [] => s3
          | c :: _ => fade_in env fuel (some c) s3

/-- fade_out (lines 328-342): animate the view's alpha to the inactive
alpha and recurse into every child. -/
def fade_out (env : HostEnv) : Nat → Option View → S → S
  | 0, _, s => s
  | _ + 1, none, s => s
  | fuel + 1, some v, s =>
      let m := indexSlot env s.scale_data v
      let s1 : S := { s with scale_data := m }
      match (getSlot env m v).transformer with
      | none => s1
      | some tr =>
          let s2 := set_hook s1
          let s3 : S := { s2 with scale_data := (modifySlot env s2.scale_data v
              (fun d => { d with fade_animation :=
                  d.fade_animation.animate tr.alpha env.inactive_alpha })) }
          (env.children v).foldl (fun t c => fade_out env fuel (some c) t) s3

/-- The skip condition of fade_out_all_except (lines 299-301): null
transformer, the view itself, its parent, or its children. -/
def skipFade (env : HostEnv) (ov : Option View) (p : View × ViewScaleData) : Bool :=
  decide (p.2.transformer = none) || decide (some p.1 = ov) ||
    (match ov with
     | some w => decide (env.parent w = some p.1)
     | none => false) ||
    decide (env.parent p.1 = ov)

/-- fade_out_all_except (lines 293-308). -/
def fade_out_all_except (env : HostEnv) (fuel : Nat) (ov : Option View) (s : S) : S :=
  s.scale_data.foldl
    (fun t p => if skipFade env ov p then t else fade_out env fuel (some p.1) t) s

/-- setup_view_transform (lines 791-811): `set` each scale transition
from the transformer's current value to the new target, restart the
shared clock, and replace the fade with a fresh 1000 ms animation from
the transformer's current alpha to the target alpha.  The source
dereferences the transformer pointer, so its behaviour is defined only
when a transformer is attached; theorems about it carry that
hypothesis. -/
def setup_view_transform (env : HostEnv) (d : ViewScaleData)
    (sx sy tx ty target_alpha : ℚ) : ViewScaleData :=
  let tr := d.transformer.getD Transformer.initial
  { d with
    animation := { scale_x := ⟨tr.scale_x, sx⟩, scale_y := ⟨tr.scale_y, sy⟩,
                   translation_x := ⟨tr.translation_x, tx⟩,
                   translation_y := ⟨tr.translation_y, ty⟩,
                   elapsed := 0, duration := env.duration },
    fade_animation := { a := tr.alpha, b := target_alpha, elapsed := 0,
                        duration := 1000 } }

def slotRunning (d : ViewScaleData) : Bool :=
  d.fade_animation.running || d.animation.running

/-- animation_running (lines 1273-1294).  The C++ `scale_data[child]`
for a child missing from the map would insert a default (non-running)
record, which cannot change the result; the model reads without
inserting (the insertion side effect is modelled where a claim depends
on it: `fade_in`, `process_key`). -/
def animation_running (env : HostEnv) (s : S) : Bool :=
  s.scale_data.any (fun p => slotRunning p.2 ||
    (env.children p.1).any (fun c => slotRunning (getSlot env s.scale_data c)))

/-- finalize (lines 1427-1445): synchronous unconditional cleanup. -/
def finalize (env : HostEnv) (s : S) : S :=
  let s1 : S := { s with active := false, input_release_impending := false }
  let s2 := unset_hook s1
  let s3 := remove_transformers env s2
  { s3 with scale_data := [], grabbed := false, button_connected := false,
            plugin_active := false }

/-- refocus (lines 1241-1270): focus the current focus view and switch
to its workspace, else fall back to the first focusable view of the
current workspace (`refocus_fallback`). -/
def refocus (env : HostEnv) (s : S) : S :=
  if s.initial_focus_view = none then s
  else
    match s.current_focus_view with
    | some w => select_view env (focus_view s (some w)) (some w)
    | none => focus_view s env.refocus_fallback

/-- deactivate (lines 1398-1424): clear `active`, set the render hooks,
release grab and plugin unless a release is pending, drive every slot
back to the identity transform and full alpha, then refocus. -/
def deactivate (env : HostEnv) (fuel : Nat) (s : S) : S :=
  let s1 : S := { s with active := false }
  let s2 := set_hook s1
  let s3 : S := if ¬s2.input_release_impending
    then { s2 with grabbed := false, plugin_active := false } else s2
  let s4 := s3.scale_data.foldl (fun t p =>
    let t1 := fade_in env fuel (some p.1) t
    { t1 with scale_data := (modifySlot env t1.scale_data p.1
        (fun d => setup_view_transform env d 1 1 0 0 1)) }) s3
  let s5 := refocus env s4
  { s5 with capabilities_grab := false }

/-- finish_input (lines 357-365): drop the pending-release flag,
release the grab, and finalize unless an animation is still running. -/
def finish_input (env : HostEnv) (s : S) : S :=
  let s1 : S := { s with input_release_impending := false, grabbed := false }
  if animation_running env s1 then s1 else finalize env s1

/-- Push the animation's current sampled values into the transformer
(the per-entry body of transform_views). -/
def applySample (d : ViewScaleData) : ViewScaleData :=
  match d.transformer with
  | none => d
  | some _ => { d with transformer := (some
      { scale_x := d.animation.scale_x.sample d.animation.progressQ,
        scale_y := d.animation.scale_y.sample d.animation.progressQ,
        translation_x := d.animation.translation_x.sample d.animation.progressQ,
        translation_y := d.animation.translation_y.sample d.animation.progressQ,
        alpha := d.fade_animation.current }) }

/-- transform_views (lines 646-704): for every slot whose view passes
the layer/role check and has a transformer, copy the sampled animation
values into it, then do the same for its children (via `find`, no
insertion). -/
def transform_views (env : HostEnv) (s : S) : S :=
  s.scale_data.foldl (fun t p =>
    if (getSlot env t.scale_data p.1).transformer = none ∨ env.layer_ok p.1 = false
    then t
    else
      let t1 : S := { t with scale_data := modifySlot env t.scale_data p.1 applySample }
      (env.children p.1).foldl (fun t2 c =>
        match lookupSlot t2.scale_data c with
        | none => t2
        | some cd =>
            if cd.transformer = none then t2
            else { t2 with scale_data := setSlot t2.scale_data c (applySample cd) }) t1) s

/-! ## layout_slots (lines 816-974)

`std::sort` orders the views by their (opaque, deterministic) handles:
modelled as insertion sort on the `Nat` handles.  The per-cell
geometry (`x`, `y`, `width`, `height`) depends only on the workarea,
the spacing and the loop indices — the `double` variables always hold
integer values because `height`/`width` are C `int` divisions — so the
cell list is computed up front and the loop is a fold over
view-cell pairs. -/

def insertAsc (v : View) : List View → List View
  | [] => [v]
  | w :: ws => if v ≤ w then v :: w :: ws else w :: insertAsc v ws

def sortAsc : List View → List View
  | [] => []
  | v :: vs => insertAsc v (sortAsc vs)

/-- One cell of the layout: row `i`, column `j`, and the band geometry
(`x`, `y`, `w`, `h`) the loop computes for it. -/
structure Cell where
  i : Nat
  j : Nat
  x : Int
  y : Int
  w : Int
  h : Int
deriving DecidableEq, Repr

/-- The cells in loop order: `y` starts at `workarea.y + spacing` and
advances by `height + spacing` per row; `x` restarts at
`workarea.x + spacing` and advances by `width + spacing` per column;
`height = (workarea.height - (lines+1)·spacing) / lines` and
`width = (workarea.width - (n+1)·spacing) / n` are C `int` divisions. -/
def layoutCells (workarea : Rect) (spacing : Int) (n : Nat) : List Cell :=
  let lines := gridRows n
  let hgt := Int.tdiv (workarea.h - ((lines : Int) + 1) * spacing) (lines : Int)
  (List.range lines).flatMap (fun i =>
    let ncols := rowColsAt n i
    let wid := Int.tdiv (workarea.w - ((ncols : Int) + 1) * spacing) (ncols : Int)
    (List.range ncols).map (fun j =>
      ⟨i, j, workarea.x + spacing + (j : Int) * (wid + spacing),
        workarea.y + spacing + (i : Int) * (hgt + spacing), wid, hgt⟩))

/-- The uniform scale for a window of geometry `vg` in cell `c`
(lines 886-895): `min(width/w, height/h)`, capped at 1 unless zooming
is allowed. -/
def cellScale (env : HostEnv) (c : Cell) (vg : Rect) : ℚ :=
  let sc := min ((c.w : ℚ) / (vg.w : ℚ)) ((c.h : ℚ) / (vg.h : ℚ))
  if ¬env.allow_scale_zoom then min sc 1 else sc

/-- A translation component (lines 888-889):
`x - vg.x + (width - vg.width)/2.0`, truncated to `int`. -/
def cellTranslation (cx cw vx vw : Int) : Int :=
  ctrunc ((cx - vx : ℚ) + ((cw - vw : ℚ)) / 2)

/-- The body of the slot loop for one window and its children
(lines 880-967).  Note: the source computes `child_scale_x/y`
(lines 917-932) but then passes the parent's `scale_x/scale_y` to
`setup_view_transform` (line 953), so the child scale computation has
no effect and is not modelled. -/
def layout_cell (env : HostEnv) (active_view : View) (c : Cell) (v : View) (s : S) : S :=
  let s1 := (add_transformer env v s).2
  let m1 := indexSlot env s1.scale_data v
  let s2 : S := { s1 with scale_data := m1 }
  let vg := env.wm_geometry v
  let sc := cellScale env c vg
  let tx : Int := cellTranslation c.x c.w vg.x vg.w
  let ty : Int := cellTranslation c.y c.h vg.y vg.h
  let target_alpha : ℚ := if v = active_view then 1 else env.inactive_alpha
  let s3 : S := { s2 with scale_data := (modifySlot env s2.scale_data v (fun d =>
      let d1 := if s2.active
        then setup_view_transform env d sc sc (tx : ℚ) (ty : ℚ) target_alpha
        else setup_view_transform env d 1 1 0 0 1
      { d1 with row := (c.i : Int), col := (c.j : Int) })) }
  (env.children v).foldl (fun t ch =>
    let vgc := env.wm_geometry ch
    let pres := add_transformer env ch t
    let t1 := pres.2
    let mc := indexSlot env t1.scale_data ch
    let t2 : S := { t1 with scale_data := mc }
    let parentTr := (getSlot env t2.scale_data v).transformer.getD Transformer.initial
    let t3 : S := if pres.1 then
        { t2 with scale_data := (modifySlot env t2.scale_data ch (fun d =>
            { d with transformer := (d.transformer.map (fun tr =>
                { tr with translation_x := parentTr.translation_x,
                          translation_y := parentTr.translation_y })) })) }
      else t2
    let txc : Int := cellTranslation c.x c.w vgc.x vgc.w
    let tyc : Int := cellTranslation c.y c.h vgc.y vgc.h
    { t3 with scale_data := (modifySlot env t3.scale_data ch (fun d =>
        let d1 := if t3.active
          then setup_view_transform env d sc sc (txc : ℚ) (tyc : ℚ) target_alpha
          else setup_view_transform env d 1 1 0 0 1
        { d1 with row := (c.i : Int), col := (c.j : Int) })) }) s3

/-- The active-view selection at the top of layout_slots
(lines 829-846): the host's active view if it is scaled, else the
first view of the list. -/
def activeViewOf (env : HostEnv) (s : S) (v0 : View) : View :=
  match s.host_focus with
  | some a => if scale_view env a then a else v0
  | none => v0

/-- layout_slots (lines 816-974). -/
def layout_slots (env : HostEnv) (fuel : Nat) (views : List View) (s : S) : S :=
  match views with
  | [] => if ¬s.all_workspaces ∧ s.active then deactivate env fuel s else s
  | v0 :: _ =>
      let av := activeViewOf env s v0
      let s1 : S := { s with current_focus_view := some av }
      let s2 : S := if s1.initial_focus_view = none
        then { s1 with initial_focus_view := some av } else s1
      let s3 : S := if s2.all_workspaces then focus_view s2 (some av) else s2
      let s4 := fade_in env fuel (some av) s3
      let s5 := fade_out_all_except env fuel (some av) s4
      let n := views.length
      let s6 : S := { s5 with grid_rows := (gridRows n : Int),
                              grid_cols := (gridCols n : Int),
                              grid_last_row_cols := gridLastRowCols n }
      let s7 := ((sortAsc views).zip (layoutCells env.workarea env.spacing n)).foldl
        (fun t p => layout_cell env av p.2 p.1 t) s6
      transform_views env (set_hook s7)

/-- activate (lines 1323-1395). -/
def activate (env : HostEnv) (fuel : Nat) (s : S) : Bool × S :=
  if s.active then (false, s)
  else
    let s1 : S := { s with capabilities_grab := true }
    if ¬s1.plugin_active ∧ ¬env.activate_plugin_ok then (false, s1)
    else
      let s2 : S := { s1 with plugin_active := true }
      if env.eligible = [] then (false, { s2 with plugin_active := false })
      else
        let s3 : S := { s2 with initial_workspace := env.current_workspace,
                                initial_focus_view := s2.host_focus }
        if ¬env.interact ∧ ¬env.grab_ok then (false, deactivate env fuel s3)
        else
          let s4 : S := if ¬env.interact then
              (let sg : S := { s3 with grabbed := true }
               if sg.initial_focus_view ≠ none
                 then focus_view sg sg.initial_focus_view else sg)
            else s3
          let s5 : S := { s4 with active := true }
          let s6 := layout_slots env fuel env.eligible s5
          let s7 : S := if env.interact then { s6 with button_connected := true } else s6
          let s8 := s7.scale_data.foldl (fun t p =>
            if some p.1 = t.initial_focus_view ∨ env.parent p.1 = t.initial_focus_view
            then t else fade_out env fuel (some p.1) t) s7
          (true, s8)

/-- The view_detached handler (lines 1099-1134).  `env.eligible` is
`get_views()` as enumerated after the detach. -/
def view_detached (env : HostEnv) (fuel : Nat) (v : View) (s : S) : S :=
  let parent_in : Bool := match env.parent v with
    | some p => (lookupSlot s.scale_data p).isSome
    | none => false
  if parent_in then
    let s1 := remove_view env v s
    if env.eligible = [] then finalize env s1 else s1
  else
    match lookupSlot s.scale_data v with
    | none => s
    | some _ =>
        let s1 := remove_view env v s
        if env.eligible = [] then finalize env s1
        else layout_slots env fuel env.eligible s1

/-- post_hook (lines 1303-1320): while an animation runs, keep
rendering; once none runs, drop the per-frame hooks, and finalize if
the session is no longer active. -/
def post_hook (env : HostEnv) (s : S) : S :=
  if animation_running env s then s
  else
    let s1 := unset_hook s
    if s1.active then s1 else finalize env s1

inductive BtnState where
  | pressed
  | released
deriving DecidableEq, Repr

/-- The buttons `process_button` distinguishes. -/
inductive Btn where
  | left
  | middle
  | other
deriving DecidableEq, Repr

/-- process_button (lines 401-470). -/
def process_button (env : HostEnv) (fuel : Nat) (b : Btn) (bs : BtnState) (s : S) : S :=
  if ¬s.active then finish_input env s
  else
    let s1 : S := if b = .left ∨ bs = .released
      then { s with input_release_impending := false } else s
    if bs ≠ .pressed then s1
    else
      let proceed : Bool := match b with
        | .left => true
        | .middle => env.middle_click_close
        | .other => false
      if ¬proceed then s1
      else
        match env.view_at_cursor with
        | none => s1
        | some v =>
            if ¬scale_view env v ∧ env.role_toplevel v = false then s1
            else if b = .middle then { s1 with close_requested := v :: s1.close_requested }
            else
              let s2 : S := { s1 with current_focus_view := some v }
              let s3 := focus_view s2 (some v)
              let s4 := fade_out_all_except env fuel (some v) s3
              let s5 := fade_in env fuel (some v) s4
              if env.interact then s5
              else
                let s6 : S := { s5 with input_release_impending := true,
                                        initial_focus_view := none }
                select_view env (deactivate env fuel s6) (some v)

inductive KeySt where
  | pressed
  | released
deriving DecidableEq, Repr

/-- The keys `process_key` distinguishes. -/
inductive Key where
  | up
  | down
  | left
  | right
  | enter
  | esc
  | other
deriving DecidableEq, Repr

def keyNav : Key → Option NavKey
  | .up => some .up
  | .down => some .down
  | .left => some .left
  | .right => some .right
  | _ => none

/-- find_view_in_grid (lines 492-503): walk `get_views()` looking for
the slot at `(row, col)` — `scale_data[view]` inserts a default record
for eligible views missing from the map — returning the first match or
else the front of the list. -/
def find_view_in_grid (env : HostEnv) (row col : Int) (s : S) : Option View × S :=
  let step := env.eligible.foldl (fun (acc : Option View × SlotMap) v =>
    match acc.1 with
    | some _ => acc
    | none =>
        let m := indexSlot env acc.2 v
        if (getSlot env m v).row = row ∧ (getSlot env m v).col = col
        then (some v, m) else (none, m)) (none, s.scale_data)
  match step.1 with
  | some v => (some v, { s with scale_data := step.2 })
  | none => (env.eligible.head?, { s with scale_data := step.2 })

/-- process_key (lines 506-643). -/
def process_key (env : HostEnv) (fuel : Nat) (k : Key) (ks : KeySt) (s : S) : S :=
  if ¬s.active then finish_input env s
  else
    match s.host_focus with
    | none =>
        let v := s.current_focus_view
        let s1 := fade_out_all_except env fuel v s
        let s2 := fade_in env fuel v s1
        focus_view s2 v
    | some view =>
        if ¬scale_view env view ∧ env.role_toplevel view = false then s
        else
          let m := indexSlot env s.scale_data view
          let s1 : S := { s with scale_data := m }
          let row := (getSlot env m view).row
          let col := (getSlot env m view).col
          let s2 : S := if ks = .released ∧ (k = .enter ∨ k = .esc)
            then { s1 with input_release_impending := false } else s1
          if ks ≠ .pressed ∨ env.keyboard_modifiers then s2
          else
            let v := s2.initial_focus_view
            match k with
            | .enter =>
                let s3 : S := { s2 with input_release_impending := true }
                let s4 := deactivate env fuel s3
                select_view env s4 s4.current_focus_view
            | .esc =>
                let s3 : S := { s2 with input_release_impending := true,
                                        initial_focus_view := none }
                let s4 := deactivate env fuel s3
                let s5 := focus_view s4 v
                { s5 with host_workspace := s5.initial_workspace }
            | .other => s2
            | k' =>
                match keyNav k' with
                | none => s2
                | some nk =>
                    let rc := navStep ⟨s2.grid_rows, s2.grid_cols, s2.grid_last_row_cols⟩
                      nk row col
                    let fv := find_view_in_grid env rc.1 rc.2 s2
                    let s3 := fv.2
                    let s4 := if fv.1 ≠ none ∧ s3.current_focus_view ≠ fv.1
                      then fade_out_all_except env fuel fv.1 s3 else s3
                    match fv.1 with
                    | none => s4
                    | some nv =>
                        let s5 : S := { s4 with current_focus_view := some nv }
                        let s6 := focus_view s5 (some nv)
                        fade_in env fuel (some nv) s6

/-! ## Slot map lemmas -/

theorem lookupSlot_cons (u : View) (d : ViewScaleData) (rest : SlotMap) (w : View) :
    lookupSlot ((u, d) :: rest) w = if u = w then some d else lookupSlot rest w := rfl

theorem foldl_preserve {α β : Type} (P : β → Prop) (f : β → α → β)
    (hf : ∀ t a, P t → P (f t a)) :
    ∀ (l : List α) (t : β), P t → P (l.foldl f t) := by
  intro l
  induction l with
  | nil => intro t ht; exact ht
  | cons a rest ih => intro t ht; exact ih (f t a) (hf t a ht)

theorem lookupSlot_setSlot_self (m : SlotMap) (v : View) (d : ViewScaleData) :
    lookupSlot (setSlot m v d) v = some d := by
  induction m with
  | nil => simp [setSlot, lookupSlot]
  | cons p rest ih =>
      unfold setSlot
      by_cases h : p.1 = v
      · simp [h, lookupSlot]
      · simp only [h, if_false]
        unfold lookupSlot
        simp [h, ih]

theorem lookupSlot_setSlot_ne (m : SlotMap) (v w : View) (d : ViewScaleData)
    (h : w ≠ v) : lookupSlot (setSlot m v d) w = lookupSlot m w := by
  induction m with
  | nil => simp [setSlot, lookupSlot, h, Ne.symm h]
  | cons p rest ih =>
      unfold setSlot
      by_cases hp : p.1 = v
      · subst hp
        simp [lookupSlot, Ne.symm h]
      · simp only [hp, if_false]
        unfold lookupSlot
        by_cases hw : p.1 = w
        · simp [hw]
        · simp [hw, ih]

theorem lookupSlot_eraseSlot_self (m : SlotMap) (v : View) :
    lookupSlot (eraseSlot m v) v = none := by
  induction m with
  | nil => rfl
  | cons p rest ih =>
      obtain ⟨w, d⟩ := p
      unfold eraseSlot
      by_cases h : w = v
      · simp [h, ih]
      · simp only [h, if_false]
        unfold lookupSlot
        simp [h, ih]

theorem lookupSlot_eraseSlot_ne (m : SlotMap) (v w : View) (h : w ≠ v) :
    lookupSlot (eraseSlot m v) w = lookupSlot m w := by
  induction m with
  | nil => rfl
  | cons p rest ih =>
      obtain ⟨u, d⟩ := p
      unfold eraseSlot
      by_cases hp : u = v
      · rw [if_pos hp, ih, lookupSlot_cons,
          if_neg (by rw [hp]; exact Ne.symm h)]
      · rw [if_neg hp]
        unfold lookupSlot
        by_cases hw : u = w
        · simp [hw]
        · simp [hw, ih]

theorem lookupSlot_indexSlot_ne (env : HostEnv) (m : SlotMap) (v w : View)
    (h : w ≠ v) : lookupSlot (indexSlot env m v) w = lookupSlot m w := by
  unfold indexSlot
  cases lookupSlot m v with
  | none => exact lookupSlot_setSlot_ne m v w _ h
  | some d => rfl

theorem lookupSlot_modifySlot_self (env : HostEnv) (m : SlotMap) (v : View)
    (f : ViewScaleData → ViewScaleData) :
    lookupSlot (modifySlot env m v f) v = some (f (getSlot env m v)) :=
  lookupSlot_setSlot_self m v _

theorem lookupSlot_modifySlot_ne (env : HostEnv) (m : SlotMap) (v w : View)
    (f : ViewScaleData → ViewScaleData) (h : w ≠ v) :
    lookupSlot (modifySlot env m v f) w = lookupSlot m w :=
  lookupSlot_setSlot_ne m v w _ h

/-! ## Concrete fixtures for witnesses -/

/-- A small concrete host environment. -/
def env0 : HostEnv :=
  { parent := fun _ => none
    children := fun _ => []
    wm_geometry := fun _ => ⟨0, 0, 100, 100⟩
    workarea := ⟨0, 0, 800, 600⟩
    spacing := 10
    duration := 500
    interact := false
    middle_click_close := false
    allow_scale_zoom := false
    inactive_alpha := 3/4
    eligible := []
    current_workspace := ⟨0, 0⟩
    view_workspace := fun _ => ⟨0, 0⟩
    activate_plugin_ok := true
    grab_ok := true
    refocus_fallback := none
    view_at_cursor := none
    keyboard_modifiers := false
    role_toplevel := fun _ => true
    layer_ok := fun _ => true }

/-- The quiescent plugin state (fresh `init`). -/
def state0 : S :=
  { grid_rows := 0, grid_cols := 0, grid_last_row_cols := 0
    initial_workspace := ⟨0, 0⟩, input_release_impending := false
    active := false, hook_set := false, button_connected := false
    initial_focus_view := none, current_focus_view := none
    scale_data := [], all_workspaces := false, capabilities_grab := false
    host_transforms := [], host_focus := none, host_workspace := ⟨0, 0⟩
    plugin_active := false, grabbed := false, close_requested := [] }

/-- Record updates that do not touch `scale_data` cannot change
whether an animation runs. -/
theorem animation_running_congr (env : HostEnv) (s t : S)
    (h : s.scale_data = t.scale_data) :
    animation_running env s = animation_running env t := by
  unfold animation_running
  rw [h]

theorem unset_hook_fields (s : S) :
    (unset_hook s).scale_data = s.scale_data ∧
    (unset_hook s).input_release_impending = s.input_release_impending ∧
    (unset_hook s).active = s.active ∧
    (unset_hook s).grabbed = s.grabbed ∧
    (unset_hook s).host_transforms = s.host_transforms ∧
    (unset_hook s).hook_set = false := by
  unfold unset_hook
  split_ifs with h <;> refine ⟨rfl, rfl, rfl, rfl, rfl, ?_⟩ <;> simp_all

theorem remove_transformers_fields (env : HostEnv) (s : S) :
    (remove_transformers env s).hook_set = s.hook_set ∧
    (remove_transformers env s).scale_data = s.scale_data ∧
    (remove_transformers env s).input_release_impending = s.input_release_impending ∧
    (remove_transformers env s).active = s.active ∧
    (remove_transformers env s).grabbed = s.grabbed ∧
    (remove_transformers env s).current_focus_view = s.current_focus_view ∧
    (remove_transformers env s).initial_focus_view = s.initial_focus_view ∧
    (remove_transformers env s).host_focus = s.host_focus ∧
    (remove_transformers env s).host_workspace = s.host_workspace := by
  unfold remove_transformers
  have key := foldl_preserve
    (fun (t : S) => t.hook_set = s.hook_set ∧ t.scale_data = s.scale_data ∧
      t.input_release_impending = s.input_release_impending ∧ t.active = s.active ∧
      t.grabbed = s.grabbed ∧ t.current_focus_view = s.current_focus_view ∧
      t.initial_focus_view = s.initial_focus_view ∧ t.host_focus = s.host_focus ∧
      t.host_workspace = s.host_workspace)
    (fun t p => (env.children p.1).foldl (fun t' c => pop_transformer c t')
      (pop_transformer p.1 t))
    (fun t p ht => foldl_preserve
      (fun (w : S) => w.hook_set = s.hook_set ∧ w.scale_data = s.scale_data ∧
        w.input_release_impending = s.input_release_impending ∧ w.active = s.active ∧
        w.grabbed = s.grabbed ∧ w.current_focus_view = s.current_focus_view ∧
        w.initial_focus_view = s.initial_focus_view ∧ w.host_focus = s.host_focus ∧
        w.host_workspace = s.host_workspace)
      (fun t' c => pop_transformer c t') (fun _ _ hw => hw)
      (env.children p.1) (pop_transformer p.1 t) ht)
    s.scale_data s ⟨rfl, rfl, rfl, rfl, rfl, rfl, rfl, rfl, rfl⟩
  exact key

theorem finalize_fields (env : HostEnv) (s : S) :
    (finalize env s).scale_data = [] ∧ (finalize env s).hook_set = false ∧
    (finalize env s).active = false ∧
    (finalize env s).input_release_impending = false ∧
    (finalize env s).grabbed = false ∧ (finalize env s).plugin_active = false ∧
    (finalize env s).button_connected = false := by
  obtain ⟨hr1, -, hr3, hr4, -, -, -, -, -⟩ := remove_transformers_fields env
    (unset_hook { s with active := false, input_release_impending := false })
  obtain ⟨-, hu2, hu3, -, -, hu6⟩ :=
    unset_hook_fields { s with active := false, input_release_impending := false }
  unfold finalize
  dsimp only
  refine ⟨rfl, ?_, ?_, ?_, rfl, rfl, rfl⟩
  · rw [hr1, hu6]
  · rw [hr4, hu3]
  · rw [hr3, hu2]

/-- `finish_input` by cases on whether an animation is running. -/
theorem finish_input_eq (env : HostEnv) (s : S) :
    finish_input env s
      = (if animation_running env s
         then { s with input_release_impending := false, grabbed := false }
         else finalize env { s with input_release_impending := false, grabbed := false }) := by
  unfold finish_input
  dsimp only
  rw [animation_running_congr env
    { s with input_release_impending := false, grabbed := false } s rfl]

/-- C10: a pointer-button or key event delivered while the session is
not active only runs finish_input: no navigation, selection, fading or
re-layout happens; the pending-release flag is cleared and the grab
released; while an animation still runs nothing else changes, and once
no animation runs, finalize tears everything down (hooks off, slot
records cleared) — finalize runs if and only if no animation runs. -/
theorem c10_inactive_input (env : HostEnv) (fuel : Nat) (b : Btn) (bs : BtnState)
    (k : Key) (ks : KeySt) (s : S) (h : s.active = false) :
    process_button env fuel b bs s = finish_input env s ∧
    process_key env fuel k ks s = finish_input env s ∧
    (finish_input env s).input_release_impending = false ∧
    (finish_input env s).grabbed = false ∧
    (animation_running env s = true →
      finish_input env s
        = { s with input_release_impending := false, grabbed := false }) ∧
    (animation_running env s = false →
      finish_input env s
          = finalize env { s with input_release_impending := false, grabbed := false } ∧
        (finish_input env s).scale_data = [] ∧
        (finish_input env s).hook_set = false) := by
  have hb : process_button env fuel b bs s = finish_input env s := by
    unfold process_button
    simp [h]
  have hk : process_key env fuel k ks s = finish_input env s := by
    unfold process_key
    simp [h]
  refine ⟨hb, hk, ?_, ?_, ?_, ?_⟩
  · rw [finish_input_eq]
    cases hr : animation_running env s
    · simp only [Bool.false_eq_true, if_false]
      exact (finalize_fields env _).2.2.2.1
    · simp
  · rw [finish_input_eq]
    cases hr : animation_running env s
    · simp only [Bool.false_eq_true, if_false]
      exact (finalize_fields env _).2.2.2.2.1
    · simp
  · intro hr
    rw [finish_input_eq, hr]
    simp
  · intro hr
    rw [finish_input_eq, hr]
    refine ⟨by simp, ?_, ?_⟩
    · simp only [Bool.false_eq_true, if_false]
      exact (finalize_fields env _).1
    · simp only [Bool.false_eq_true, if_false]
      exact (finalize_fields env _).2.1

theorem c10_inactive_input_witness :
    process_button env0 2 .left .pressed state0 = finish_input env0 state0 :=
  (c10_inactive_input env0 2 .left .pressed .up .pressed state0 rfl).1

/-! ## Frame lemmas: which state fields an operation can touch -/

/-- `t` agrees with `s` outside `scale_data` and `hook_set`. -/
def updSD (s t : S) : Prop :=
  t = { s with scale_data := t.scale_data, hook_set := t.hook_set }

theorem updSD.refl (s : S) : updSD s s := rfl

theorem updSD.trans {s t u : S} (h1 : updSD s t) (h2 : updSD t u) : updSD s u := by
  unfold updSD at *
  rw [h2, h1]

theorem updSD_foldl {α : Type} (f : S → α → S) (hf : ∀ t a, updSD t (f t a))
    (l : List α) (s : S) : updSD s (l.foldl f s) :=
  foldl_preserve (fun t => updSD s t) f (fun t a ht => ht.trans (hf t a)) l s
    (updSD.refl s)

theorem updSD_set_hook (s : S) : updSD s (set_hook s) := by
  unfold set_hook
  split_ifs
  · exact updSD.refl s
  · exact rfl

theorem updSD_fade_in (env : HostEnv) :
    ∀ (fuel : Nat) (ov : Option View) (s : S), updSD s (fade_in env fuel ov s) := by
  intro fuel
  induction fuel with
  | zero => intro ov s; exact updSD.refl s
  | succ n ih =>
      intro ov s
      cases ov with
      | none => exact updSD.refl s
      | some v =>
          show updSD s (fade_in env (n + 1) (some v) s)
          unfold fade_in
          dsimp only
          cases hh : (getSlot env (indexSlot env s.scale_data v) v).transformer with
          | none => exact rfl
          | some tr =>
              have h1 : updSD s
                  ({ s with scale_data := indexSlot env s.scale_data v } : S) := rfl
              have h2 := updSD_set_hook
                ({ s with scale_data := indexSlot env s.scale_data v } : S)
              have h3 : updSD
                  (set_hook { s with scale_data := indexSlot env s.scale_data v })
                  ({ set_hook { s with scale_data := indexSlot env s.scale_data v } with
                    scale_data := (modifySlot env
                      (set_hook { s with
                        scale_data := indexSlot env s.scale_data v }).scale_data v
                      (fun d => { d with fade_animation :=
                        d.fade_animation.animate tr.alpha 1 })) } : S) := rfl
              have h123 := (h1.trans h2).trans h3
              cases hch : env.children v with
              | nil => exact h123
              | cons c rest => exact h123.trans (ih (some c) _)

theorem updSD_fade_out (env : HostEnv) :
    ∀ (fuel : Nat) (ov : Option View) (s : S), updSD s (fade_out env fuel ov s) := by
  intro fuel
  induction fuel with
  | zero => intro ov s; exact updSD.refl s
  | succ n ih =>
      intro ov s
      cases ov with
      | none => exact updSD.refl s
      | some v =>
          show updSD s (fade_out env (n + 1) (some v) s)
          unfold fade_out
          dsimp only
          cases hh : (getSlot env (indexSlot env s.scale_data v) v).transformer with
          | none => exact rfl
          | some tr =>
              have h1 : updSD s
                  ({ s with scale_data := indexSlot env s.scale_data v } : S) := rfl
              have h2 := updSD_set_hook
                ({ s with scale_data := indexSlot env s.scale_data v } : S)
              have h3 : updSD
                  (set_hook { s with scale_data := indexSlot env s.scale_data v })
                  ({ set_hook { s with scale_data := indexSlot env s.scale_data v } with
                    scale_data := (modifySlot env
                      (set_hook { s with
                        scale_data := indexSlot env s.scale_data v }).scale_data v
                      (fun d => { d with fade_animation :=
                        d.fade_animation.animate tr.alpha env.inactive_alpha })) } : S) :=
                rfl
              exact ((h1.trans h2).trans h3).trans
                (updSD_foldl _ (fun t c => ih (some c) t) _ _)

theorem updSD_fade_out_all_except (env : HostEnv) (fuel : Nat) (ov : Option View)
    (s : S) : updSD s (fade_out_all_except env fuel ov s) := by
  unfold fade_out_all_except
  exact foldl_preserve (fun t => updSD s t) _
    (fun t p ht => by
      by_cases h : skipFade env ov p
      · simpa [h] using ht
      · simp only [h, if_false]
        exact ht.trans (updSD_fade_out env fuel (some p.1) t))
    _ _ (updSD.refl s)

/-- Projections of `updSD`. -/
theorem updSD.fields {s t : S} (h : updSD s t) :
    t.active = s.active ∧ t.host_transforms = s.host_transforms ∧
    t.host_focus = s.host_focus ∧ t.host_workspace = s.host_workspace ∧
    t.grabbed = s.grabbed ∧ t.plugin_active = s.plugin_active ∧
    t.input_release_impending = s.input_release_impending ∧
    t.current_focus_view = s.current_focus_view ∧
    t.initial_focus_view = s.initial_focus_view ∧
    t.initial_workspace = s.initial_workspace ∧
    t.capabilities_grab = s.capabilities_grab ∧
    t.grid_rows = s.grid_rows ∧ t.grid_cols = s.grid_cols ∧
    t.grid_last_row_cols = s.grid_last_row_cols ∧
    t.all_workspaces = s.all_workspaces ∧
    t.button_connected = s.button_connected ∧
    t.close_requested = s.close_requested := by
  rw [h]
  exact ⟨rfl, rfl, rfl, rfl, rfl, rfl, rfl, rfl, rfl, rfl, rfl, rfl, rfl, rfl, rfl,
    rfl, rfl⟩

theorem refocus_fields (env : HostEnv) (s : S) :
    (refocus env s).active = s.active ∧
    (refocus env s).scale_data = s.scale_data ∧
    (refocus env s).host_transforms = s.host_transforms ∧
    (refocus env s).hook_set = s.hook_set ∧
    (refocus env s).grabbed = s.grabbed ∧
    (refocus env s).plugin_active = s.plugin_active ∧
    (refocus env s).input_release_impending = s.input_release_impending ∧
    (refocus env s).capabilities_grab = s.capabilities_grab := by
  unfold refocus select_view focus_view
  split_ifs with h
  · exact ⟨rfl, rfl, rfl, rfl, rfl, rfl, rfl, rfl⟩
  · cases s.current_focus_view <;>
      exact ⟨rfl, rfl, rfl, rfl, rfl, rfl, rfl, rfl⟩

/-- The deactivate slot loop only touches `scale_data` and `hook_set`. -/
theorem updSD_deactivate_fold (env : HostEnv) (fuel : Nat) (s : S) :
    updSD s (s.scale_data.foldl (fun t p =>
      let t1 := fade_in env fuel (some p.1) t
      { t1 with scale_data := (modifySlot env t1.scale_data p.1
          (fun d => setup_view_transform env d 1 1 0 0 1)) }) s) := by
  apply updSD_foldl
  intro t p
  have h1 := updSD_fade_in env fuel (some p.1) t
  have h2 : updSD (fade_in env fuel (some p.1) t)
      ({ fade_in env fuel (some p.1) t with
        scale_data := (modifySlot env (fade_in env fuel (some p.1) t).scale_data p.1
          (fun d => setup_view_transform env d 1 1 0 0 1)) } : S) := rfl
  exact h1.trans h2

theorem set_hook_proj (s : S) :
    (set_hook s).scale_data = s.scale_data ∧
    (set_hook s).active = s.active ∧
    (set_hook s).input_release_impending = s.input_release_impending ∧
    (set_hook s).host_transforms = s.host_transforms ∧
    (set_hook s).grabbed = s.grabbed ∧
    (set_hook s).plugin_active = s.plugin_active := by
  unfold set_hook
  split_ifs <;> exact ⟨rfl, rfl, rfl, rfl, rfl, rfl⟩

/-- deactivate always clears `active` and the grab capability, never
touches `host_transforms`, and creates no slot record when none exist;
with no pending release it also drops the grab and the plugin
activation. -/
theorem deactivate_fields (env : HostEnv) (fuel : Nat) (s : S) :
    (deactivate env fuel s).active = false ∧
    (deactivate env fuel s).capabilities_grab = false ∧
    (deactivate env fuel s).host_transforms = s.host_transforms ∧
    (s.input_release_impending = false → (deactivate env fuel s).grabbed = false ∧
      (deactivate env fuel s).plugin_active = false) ∧
    (s.scale_data = [] → (deactivate env fuel s).scale_data = []) := by
  unfold deactivate
  dsimp only
  set s2 : S := set_hook { s with active := false } with hs2
  have hP2 := set_hook_proj ({ s with active := false } : S)
  set s3 : S := (if ¬s2.input_release_impending
    then { s2 with grabbed := false, plugin_active := false } else s2) with hs3
  have h3a : s3.active = false := by
    rw [hs3]; split_ifs <;> exact hP2.2.1
  have h3t : s3.host_transforms = s.host_transforms := by
    rw [hs3]; split_ifs <;> exact hP2.2.2.2.1
  have h3sd : s3.scale_data = s.scale_data := by
    rw [hs3]; split_ifs <;> exact hP2.1
  have h3g : s.input_release_impending = false →
      s3.grabbed = false ∧ s3.plugin_active = false := by
    intro hflag
    rw [hs3, if_pos]
    · exact ⟨rfl, rfl⟩
    · rw [hP2.2.2.1]
      simp [hflag]
  set s4 : S := s3.scale_data.foldl (fun t p =>
      let t1 := fade_in env fuel (some p.1) t
      { t1 with scale_data := (modifySlot env t1.scale_data p.1
          (fun d => setup_view_transform env d 1 1 0 0 1)) }) s3 with hs4
  have hfold : updSD s3 s4 := updSD_deactivate_fold env fuel s3
  have h4 := hfold.fields
  obtain ⟨hrf1, hrf2, hrf3, hrf4, hrf5, hrf6, hrf7, hrf8⟩ := refocus_fields env s4
  refine ⟨?_, rfl, ?_, ?_, ?_⟩
  · show (refocus env s4).active = false
    rw [hrf1, h4.1, h3a]
  · show (refocus env s4).host_transforms = s.host_transforms
    rw [hrf3, h4.2.1, h3t]
  · intro hflag
    obtain ⟨hg, hp⟩ := h3g hflag
    exact ⟨by show (refocus env s4).grabbed = false; rw [hrf5, h4.2.2.2.2.1, hg],
      by show (refocus env s4).plugin_active = false; rw [hrf6, h4.2.2.2.2.2.1, hp]⟩
  · intro hsd
    show (refocus env s4).scale_data = []
    rw [hrf2, hs4, h3sd, hsd]
    show s3.scale_data = []
    rw [h3sd, hsd]

/-- C2 (amended): `activate` returns false in all four failure cases —
already active, plugin activation refused, empty eligible set, grab
refused — and in each the session stays inactive with no slot records
or transforms created.  When already active the state is entirely
unchanged; on plugin refusal only the grab-capability flag has been
raised; on an empty eligible set additionally the plugin is left
deactivated.  When the grab is refused, however, the code calls
`deactivate()`, which may re-focus and switch workspace via `refocus`
(see the counterexample): only inactivity and the absence of new
records/transforms survive, not "prior state untouched". -/
theorem c2_activate_failure_modes (env : HostEnv) (fuel : Nat) (s : S) :
    (s.active = true → activate env fuel s = (false, s)) ∧
    (s.active = false → s.plugin_active = false → env.activate_plugin_ok = false →
      activate env fuel s = (false, { s with capabilities_grab := true })) ∧
    (s.active = false → (s.plugin_active = true ∨ env.activate_plugin_ok = true) →
      env.eligible = [] →
      activate env fuel s
        = (false, { s with capabilities_grab := true, plugin_active := false })) ∧
    (s.active = false → (s.plugin_active = true ∨ env.activate_plugin_ok = true) →
      env.eligible ≠ [] → env.interact = false → env.grab_ok = false →
      s.scale_data = [] →
      (activate env fuel s).1 = false ∧
      (activate env fuel s).2.active = false ∧
      (activate env fuel s).2.scale_data = [] ∧
      (activate env fuel s).2.host_transforms = s.host_transforms) := by
  refine ⟨?_, ?_, ?_, ?_⟩
  · intro ha
    unfold activate
    simp [ha]
  · intro ha hp hok
    unfold activate
    simp [ha, hp, hok]
  · intro ha hpo hel
    unfold activate
    rcases hpo with hp | hok
    · simp [ha, hp, hel]
    · simp [ha, hok, hel]
  · intro ha hpo hel hint hgrab hsd
    have hact : activate env fuel s
        = (false, deactivate env fuel
            { s with capabilities_grab := true, plugin_active := true,
                     initial_workspace := env.current_workspace,
                     initial_focus_view := s.host_focus }) := by
      unfold activate
      rcases hpo with hp | hok
      · simp [ha, hp, hel, hint, hgrab]
      · simp [ha, hok, hel, hint, hgrab]
    set s3 : S := { s with capabilities_grab := true, plugin_active := true,
                           initial_workspace := env.current_workspace,
                           initial_focus_view := s.host_focus } with hs3
    obtain ⟨hd1, -, hd3, -, hd5⟩ := deactivate_fields env fuel s3
    rw [hact]
    exact ⟨rfl, hd1, hd5 hsd, hd3⟩

theorem c2_activate_failure_modes_witness :
    activate env0 2 { state0 with active := true }
      = (false, { state0 with active := true }) :=
  (c2_activate_failure_modes env0 2 { state0 with active := true }).1 rfl

/-- The environment for the C2 counterexample: one eligible window,
the host refuses the grab, window 7 lives on workspace (1,0). -/
def env2c : HostEnv :=
  { env0 with eligible := [3], grab_ok := false,
              view_workspace := fun _ => ⟨1, 0⟩ }

/-- The state for the C2 counterexample: a stale `current_focus_view`
from an earlier session (finalize does not clear it), window 3
currently focused. -/
def state2c : S :=
  { state0 with current_focus_view := some 7, host_focus := some 3 }

/-- C2 counterexample: with the grab refused, `activate` returns false
but does not leave prior focus/workspace state untouched — the
`deactivate()` it calls refocuses the stale `current_focus_view` (7)
and switches the workspace to that window's workspace, so the claim as
stated is false. -/
theorem c2_activate_counterexample :
    (activate env2c 2 state2c).1 = false ∧
    state2c.host_focus = some 3 ∧
    (activate env2c 2 state2c).2.host_focus = some 7 ∧
    state2c.host_workspace = ⟨0, 0⟩ ∧
    (activate env2c 2 state2c).2.host_workspace = ⟨1, 0⟩ := by
  refine ⟨?_, rfl, ?_, rfl, ?_⟩ <;> rfl

/-! ## C9: the slot-record / attached-transform correspondence -/

/-- The amended invariant: every slot record whose transformer pointer
is set corresponds to an attached transform, and every attached
transform has a slot record.  (Slot records with a *null* transformer
pointer can transiently exist: `std::map::operator[]` creates them.) -/
def slotsConsistent (s : S) : Prop :=
  (∀ v d, lookupSlot s.scale_data v = some d → d.transformer.isSome = true →
    v ∈ s.host_transforms) ∧
  (∀ v, v ∈ s.host_transforms → (lookupSlot s.scale_data v).isSome = true)

theorem consistent_index (env : HostEnv) (m : SlotMap) (ht : List View) (v : View)
    (h1 : ∀ w d, lookupSlot m w = some d → d.transformer.isSome = true → w ∈ ht)
    (h2 : ∀ w, w ∈ ht → (lookupSlot m w).isSome = true) :
    (∀ w d, lookupSlot (indexSlot env m v) w = some d →
      d.transformer.isSome = true → w ∈ ht) ∧
    (∀ w, w ∈ ht → (lookupSlot (indexSlot env m v) w).isSome = true) := by
  unfold indexSlot
  cases hl : lookupSlot m v with
  | some d0 => exact ⟨h1, h2⟩
  | none =>
      constructor
      · intro w d hw hsome
        by_cases hwv : w = v
        · subst hwv
          rw [lookupSlot_setSlot_self] at hw
          cases hw
          simp [defaultSlot] at hsome
        · rw [lookupSlot_setSlot_ne _ _ _ _ hwv] at hw
          exact h1 w d hw hsome
      · intro w hwht
        by_cases hwv : w = v
        · subst hwv
          rw [lookupSlot_setSlot_self]
          rfl
        · rw [lookupSlot_setSlot_ne _ _ _ _ hwv]
          exact h2 w hwht

theorem consistent_modify (env : HostEnv) (m : SlotMap) (ht : List View) (v : View)
    (f : ViewScaleData → ViewScaleData)
    (hf : ∀ d, (f d).transformer = d.transformer)
    (h1 : ∀ w d, lookupSlot m w = some d → d.transformer.isSome = true → w ∈ ht)
    (h2 : ∀ w, w ∈ ht → (lookupSlot m w).isSome = true) :
    (∀ w d, lookupSlot (modifySlot env m v f) w = some d →
      d.transformer.isSome = true → w ∈ ht) ∧
    (∀ w, w ∈ ht → (lookupSlot (modifySlot env m v f) w).isSome = true) := by
  constructor
  · intro w d hw hsome
    by_cases hwv : w = v
    · subst hwv
      rw [lookupSlot_modifySlot_self] at hw
      cases hw
      rw [hf] at hsome
      unfold getSlot at hsome
      cases hl : lookupSlot m w with
      | some d0 =>
          rw [hl] at hsome
          exact h1 w d0 hl (by simpa using hsome)
      | none =>
          rw [hl] at hsome
          simp [defaultSlot] at hsome
    · rw [lookupSlot_modifySlot_ne _ _ _ _ _ hwv] at hw
      exact h1 w d hw hsome
  · intro w hwht
    by_cases hwv : w = v
    · subst hwv
      rw [lookupSlot_modifySlot_self]
      rfl
    · rw [lookupSlot_modifySlot_ne _ _ _ _ _ hwv]
      exact h2 w hwht

theorem slotsConsistent_add_transformer (env : HostEnv) (v : View) (s : S)
    (h : slotsConsistent s) : slotsConsistent (add_transformer env v s).2 := by
  unfold add_transformer
  by_cases hm : v ∈ s.host_transforms
  · simpa [hm] using h
  · simp only [hm, if_false]
    constructor
    · intro w d hw hsome
      by_cases hwv : w = v
      · subst hwv
        exact List.mem_cons_self _ _
      · rw [lookupSlot_modifySlot_ne _ _ _ _ _ hwv] at hw
        exact List.mem_cons_of_mem _ (h.1 w d hw hsome)
    · intro w hwmem
      rcases List.mem_cons.mp hwmem with hwv | hwold
      · subst hwv
        rw [lookupSlot_modifySlot_self]
        rfl
      · by_cases hwv : w = v
        · subst hwv
          rw [lookupSlot_modifySlot_self]
          rfl
        · rw [lookupSlot_modifySlot_ne _ _ _ _ _ hwv]
          exact h.2 w hwold

theorem check_focus_view_proj (s : S) (v : View) :
    (check_focus_view s v).scale_data = s.scale_data ∧
    (check_focus_view s v).host_transforms = s.host_transforms := by
  unfold check_focus_view
  dsimp only
  split_ifs <;> exact ⟨rfl, rfl⟩

/-- Removing a view from both collections preserves the invariant. -/
theorem slotsConsistent_remove_one (c : View) (t : S) (h : slotsConsistent t) :
    slotsConsistent { pop_transformer c (check_focus_view t c) with
      scale_data := eraseSlot (pop_transformer c (check_focus_view t c)).scale_data c } := by
  obtain ⟨hcf1, hcf2⟩ := check_focus_view_proj t c
  have hpopsd : (pop_transformer c (check_focus_view t c)).scale_data = t.scale_data := by
    rw [show (pop_transformer c (check_focus_view t c)).scale_data
        = (check_focus_view t c).scale_data from rfl, hcf1]
  have hpopht : (pop_transformer c (check_focus_view t c)).host_transforms
      = t.host_transforms.filter (fun u => u != c) := by
    rw [show (pop_transformer c (check_focus_view t c)).host_transforms
        = (check_focus_view t c).host_transforms.filter (fun u => u != c) from rfl, hcf2]
  constructor
  · intro w d hw hsome
    show w ∈ (pop_transformer c (check_focus_view t c)).host_transforms
    rw [hpopht, List.mem_filter]
    have hw' : lookupSlot
        (eraseSlot (pop_transformer c (check_focus_view t c)).scale_data c) w
        = some d := hw
    by_cases hwc : w = c
    · rw [hwc, lookupSlot_eraseSlot_self] at hw'
      cases hw'
    · rw [lookupSlot_eraseSlot_ne _ _ _ hwc, hpopsd] at hw'
      exact ⟨h.1 w d hw' hsome, by simpa using hwc⟩
  · intro w hwmem
    have hwmem' : w ∈ (pop_transformer c (check_focus_view t c)).host_transforms := hwmem
    rw [hpopht, List.mem_filter] at hwmem'
    obtain ⟨hwold, hwc⟩ := hwmem'
    have hwc' : w ≠ c := by simpa using hwc
    show (lookupSlot
      (eraseSlot (pop_transformer c (check_focus_view t c)).scale_data c) w).isSome = true
    rw [lookupSlot_eraseSlot_ne _ _ _ hwc', hpopsd]
    exact h.2 w hwold

theorem slotsConsistent_remove_view (env : HostEnv) (v : View) (s : S)
    (h : slotsConsistent s) : slotsConsistent (remove_view env v s) := by
  unfold remove_view
  dsimp only
  exact foldl_preserve slotsConsistent _
    (fun t c ht => slotsConsistent_remove_one c t ht)
    (env.children v) _ (slotsConsistent_remove_one v s h)

theorem slotsConsistent_fade_in (env : HostEnv) :
    ∀ (fuel : Nat) (ov : Option View) (s : S), slotsConsistent s →
      slotsConsistent (fade_in env fuel ov s) := by
  intro fuel
  induction fuel with
  | zero => intro ov s h; exact h
  | succ n ih =>
      intro ov s h
      cases ov with
      | none => exact h
      | some v =>
          show slotsConsistent (fade_in env (n + 1) (some v) s)
          unfold fade_in
          dsimp only
          cases hh : (getSlot env (indexSlot env s.scale_data v) v).transformer with
          | none =>
              exact consistent_index env s.scale_data s.host_transforms v h.1 h.2
          | some tr =>
              have hbase := consistent_index env s.scale_data s.host_transforms v h.1 h.2
              have hs1 := set_hook_proj ({ s with
                scale_data := indexSlot env s.scale_data v } : S)
              have hmod := consistent_modify env
                (set_hook { s with scale_data := indexSlot env s.scale_data v }).scale_data
                s.host_transforms v
                (fun d => { d with fade_animation := d.fade_animation.animate tr.alpha 1 })
                (fun d => rfl)
                (by rw [hs1.1]; exact hbase.1)
                (by rw [hs1.1]; exact hbase.2)
              have hs3 : slotsConsistent ({ set_hook { s with
                  scale_data := indexSlot env s.scale_data v } with
                scale_data := (modifySlot env
                  (set_hook { s with scale_data := indexSlot env s.scale_data v }).scale_data v
                  (fun d => { d with fade_animation :=
                    d.fade_animation.animate tr.alpha 1 })) } : S) := by
                constructor
                · intro w d hw hsome
                  show w ∈ (set_hook { s with
                    scale_data := indexSlot env s.scale_data v }).host_transforms
                  rw [hs1.2.2.2.1]
                  exact hmod.1 w d hw hsome
                · intro w hwmem
                  rw [hs1.2.2.2.1] at hwmem
                  exact hmod.2 w hwmem
              cases hch : env.children v with
              | nil => exact hs3
              | cons c rest => exact ih (some c) _ hs3

/-- C9 (amended): the correspondence maintained by the code is between
slot records *with a non-null transformer pointer* and attached
transforms: `add_transformer`, `remove_view` and `fade_in` each
preserve that relation in both directions.  (The literal 1:1 claim
fails: defensive `operator[]` reads insert slot records with no
transform, see the counterexample.) -/
theorem c9_slot_transform_consistency (env : HostEnv) (fuel : Nat) (v : View)
    (ov : Option View) (s : S) (h : slotsConsistent s) :
    slotsConsistent (add_transformer env v s).2 ∧
    slotsConsistent (remove_view env v s) ∧
    slotsConsistent (fade_in env fuel ov s) :=
  ⟨slotsConsistent_add_transformer env v s h,
    slotsConsistent_remove_view env v s h,
    slotsConsistent_fade_in env fuel ov s h⟩

theorem c9_slot_transform_consistency_witness :
    slotsConsistent (add_transformer env0 1 state0).2 :=
  (c9_slot_transform_consistency env0 2 1 none state0
    ⟨fun w d hw _ => by simp [lookupSlot] at hw, fun w hw => by simp [state0] at hw⟩).1

/-- The C9 counterexample environment and state: the session is active,
window 5 is eligible and focused, but (through an attach/layout race)
has no slot record yet. -/
def env9c : HostEnv := { env0 with eligible := [5] }

def state9c : S := { state0 with active := true, host_focus := some 5 }

/-- C9 counterexample: a key-release event delivered in that state runs
the `scale_data[view]` reads of `process_key`, whose `operator[]`
inserts a default slot record for window 5 — at return to the event
loop window 5 has a slot record but no attached transform, so the
claimed 1:1 correspondence between slot records and attached transforms
does not hold as stated. -/
theorem c9_slot_transform_counterexample :
    (lookupSlot (process_key env9c 2 .up .released state9c).scale_data 5).isSome
        = true ∧
    (process_key env9c 2 .up .released state9c).host_transforms = [] :=
  ⟨rfl, rfl⟩

/-! ## C3: deactivate drives every slot back to the identity transform -/

/-- Animation targets of a slot record at the identity transform and
full alpha. -/
def restoredTargets (d : ViewScaleData) : Prop :=
  d.animation.scale_x.b = 1 ∧ d.animation.scale_y.b = 1 ∧
  d.animation.translation_x.b = 0 ∧ d.animation.translation_y.b = 0 ∧
  d.fade_animation.b = 1

theorem restoredTargets_setup (env : HostEnv) (d : ViewScaleData) :
    restoredTargets (setup_view_transform env d 1 1 0 0 1) :=
  ⟨rfl, rfl, rfl, rfl, rfl⟩

theorem restoredTargets_fade (d : ViewScaleData) (x : ℚ)
    (h : restoredTargets d) :
    restoredTargets { d with fade_animation := d.fade_animation.animate x 1 } :=
  ⟨h.1, h.2.1, h.2.2.1, h.2.2.2.1, rfl⟩

theorem lookupSlot_indexSlot_of_some (env : HostEnv) (m : SlotMap) (v w : View)
    (d : ViewScaleData) (h : lookupSlot m w = some d) :
    lookupSlot (indexSlot env m v) w = some d := by
  unfold indexSlot
  cases hl : lookupSlot m v with
  | some d0 => exact h
  | none =>
      have hwv : w ≠ v := fun he => by rw [he, hl] at h; cases h
      rw [lookupSlot_setSlot_ne _ _ _ _ hwv]
      exact h

theorem getSlot_indexSlot_of_some (env : HostEnv) (m : SlotMap) (w : View)
    (d : ViewScaleData) (h : lookupSlot m w = some d) :
    getSlot env (indexSlot env m w) w = d := by
  unfold getSlot indexSlot
  rw [h]
  rw [h]
  rfl

/-- fade_in preserves "the slot exists and its targets are restored":
it only resets fade targets to 1 and may insert unrelated fresh
records. -/
theorem fade_in_preserves_restored (env : HostEnv) :
    ∀ (fuel : Nat) (ov : Option View) (s : S) (w : View),
      (∃ d', lookupSlot s.scale_data w = some d' ∧ restoredTargets d') →
      ∃ d'', lookupSlot (fade_in env fuel ov s).scale_data w = some d'' ∧
        restoredTargets d'' := by
  intro fuel
  induction fuel with
  | zero => intro ov s w h; exact h
  | succ n ih =>
      intro ov s w h
      obtain ⟨d', hl, hres⟩ := h
      cases ov with
      | none => exact ⟨d', hl, hres⟩
      | some v =>
          show ∃ d'', lookupSlot (fade_in env (n + 1) (some v) s).scale_data w
            = some d'' ∧ restoredTargets d''
          unfold fade_in
          dsimp only
          cases hh : (getSlot env (indexSlot env s.scale_data v) v).transformer with
          | none =>
              exact ⟨d', lookupSlot_indexSlot_of_some env _ v w d' hl, hres⟩
          | some tr =>
              have hs1 := set_hook_proj ({ s with
                scale_data := indexSlot env s.scale_data v } : S)
              have hafter : ∃ d'', lookupSlot (modifySlot env
                  (set_hook { s with scale_data := indexSlot env s.scale_data v }).scale_data v
                  (fun d => { d with fade_animation := d.fade_animation.animate tr.alpha 1 })) w
                  = some d'' ∧ restoredTargets d'' := by
                by_cases hwv : w = v
                · subst hwv
                  rw [lookupSlot_modifySlot_self]
                  refine ⟨_, rfl, ?_⟩
                  have hg : getSlot env (set_hook { s with
                      scale_data := indexSlot env s.scale_data w }).scale_data w = d' := by
                    rw [hs1.1]
                    exact getSlot_indexSlot_of_some env s.scale_data w d' hl
                  rw [hg]
                  exact restoredTargets_fade d' tr.alpha hres
                · rw [lookupSlot_modifySlot_ne _ _ _ _ _ hwv, hs1.1]
                  exact ⟨d', lookupSlot_indexSlot_of_some env _ v w d' hl, hres⟩
              cases hch : env.children v with
              | nil => exact hafter
              | cons c rest => exact ih (some c) _ w hafter

/-- One iteration of the deactivate loop. -/
theorem deactivate_step_restores (env : HostEnv) (fuel : Nat) (t : S)
    (p : View × ViewScaleData) (w : View)
    (h : w = p.1 ∨ ∃ d', lookupSlot t.scale_data w = some d' ∧ restoredTargets d') :
    ∃ d'', lookupSlot
      ((fun (t : S) (p : View × ViewScaleData) =>
        let t1 := fade_in env fuel (some p.1) t
        { t1 with scale_data := (modifySlot env t1.scale_data p.1
            (fun d => setup_view_transform env d 1 1 0 0 1)) }) t p).scale_data w
      = some d'' ∧ restoredTargets d'' := by
  dsimp only
  by_cases hwp : w = p.1
  · subst hwp
    rw [lookupSlot_modifySlot_self]
    exact ⟨_, rfl, restoredTargets_setup env _⟩
  · rcases h with h | h
    · exact absurd h hwp
    · rw [lookupSlot_modifySlot_ne _ _ _ _ _ hwp]
      exact fade_in_preserves_restored env fuel (some p.1) t w h

/-- After folding the deactivate loop over a list containing `w` (or
starting from a state where `w` is already restored), `w`'s slot is
restored. -/
theorem deactivate_fold_restores (env : HostEnv) (fuel : Nat) :
    ∀ (l : List (View × ViewScaleData)) (t : S) (w : View),
      (w ∈ l.map Prod.fst ∨
        ∃ d', lookupSlot t.scale_data w = some d' ∧ restoredTargets d') →
      ∃ d'', lookupSlot ((l.foldl (fun (t : S) (p : View × ViewScaleData) =>
          let t1 := fade_in env fuel (some p.1) t
          { t1 with scale_data := (modifySlot env t1.scale_data p.1
              (fun d => setup_view_transform env d 1 1 0 0 1)) }) t)).scale_data w
        = some d'' ∧ restoredTargets d'' := by
  intro l
  induction l with
  | nil =>
      intro t w h
      rcases h with h | h
      · simp at h
      · exact h
  | cons p rest ih =>
      intro t w h
      rw [List.foldl_cons]
      by_cases hwp : w = p.1
      · exact ih _ w (Or.inr (deactivate_step_restores env fuel t p w (Or.inl hwp)))
      · rcases h with h | h
        · rcases List.mem_map.mp h with ⟨q, hq, hq2⟩
          rcases List.mem_cons.mp hq with hq | hq
          · exact absurd (by rw [← hq2, hq]) hwp
          · exact ih _ w (Or.inl (List.mem_map.mpr ⟨q, hq, hq2⟩))
        · exact ih _ w
            (Or.inr (deactivate_step_restores env fuel t p w (Or.inr h)))

theorem lookupSlot_mem (m : SlotMap) (w : View) (d : ViewScaleData)
    (h : lookupSlot m w = some d) : (w, d) ∈ m := by
  induction m with
  | nil => cases h
  | cons p rest ih =>
      obtain ⟨u, d0⟩ := p
      rw [lookupSlot_cons] at h
      by_cases hu : u = w
      · rw [if_pos hu] at h
        cases h
        rw [hu]
        exact List.mem_cons_self _ _
      · rw [if_neg hu] at h
        exact List.mem_cons_of_mem _ (ih h)

theorem set_hook_eq (s : S) : set_hook s = { s with hook_set := true } := by
  unfold set_hook
  by_cases hb : s.hook_set
  · rw [if_pos hb]
    conv_rhs => rw [← hb]
  · rw [if_neg hb]

theorem unset_hook_eq (s : S) : unset_hook s = { s with hook_set := false } := by
  unfold unset_hook
  by_cases hb : s.hook_set
  · rw [if_neg (by simp [hb])]
  · rw [if_pos (by simp [hb])]
    have hf : s.hook_set = false := by simpa using hb
    conv_rhs => rw [← hf]

theorem not_mem_pop (c w : View) (u : S) (h : w ∉ u.host_transforms) :
    w ∉ (pop_transformer c u).host_transforms := by
  intro hm
  exact h (List.mem_filter.mp hm).1

theorem not_mem_pop_self (w : View) (u : S) :
    w ∉ (pop_transformer w u).host_transforms := by
  intro hm
  have := (List.mem_filter.mp hm).2
  simp at this

theorem not_mem_popstep (env : HostEnv) (w : View) (t : S)
    (p : View × ViewScaleData) (h : w ∉ t.host_transforms) :
    w ∉ ((env.children p.1).foldl (fun t' c => pop_transformer c t')
      (pop_transformer p.1 t)).host_transforms :=
  foldl_preserve (fun u => w ∉ u.host_transforms) _
    (fun u c hu => not_mem_pop c w u hu) _ _ (not_mem_pop p.1 w t h)

theorem not_mem_removers_fold (env : HostEnv) (w : View) :
    ∀ (l : List (View × ViewScaleData)) (t : S), w ∉ t.host_transforms →
      w ∉ ((l.foldl (fun t p => (env.children p.1).foldl
        (fun t' c => pop_transformer c t') (pop_transformer p.1 t)) t)).host_transforms :=
  fun l t h => foldl_preserve (fun u => w ∉ u.host_transforms) _
    (fun u p hu => not_mem_popstep env w u p hu) l t h

/-- Once a view's entry is processed by the remove_transformers loop,
its transform is detached for good. -/
theorem entry_not_in_removers_fold (env : HostEnv) :
    ∀ (l : List (View × ViewScaleData)) (t : S) (w : View) (d : ViewScaleData),
      (w, d) ∈ l →
      w ∉ ((l.foldl (fun t p => (env.children p.1).foldl
        (fun t' c => pop_transformer c t') (pop_transformer p.1 t)) t)).host_transforms := by
  intro l
  induction l with
  | nil => intro t w d h; cases h
  | cons p rest ih =>
      intro t w d hmem
      rw [List.foldl_cons]
      rcases List.mem_cons.mp hmem with hp | hp
      · have hw : w = p.1 := by rw [← hp]
        have habs : w ∉ ((env.children p.1).foldl (fun t' c => pop_transformer c t')
            (pop_transformer p.1 t)).host_transforms :=
          foldl_preserve (fun u => w ∉ u.host_transforms) _
            (fun u c hu => not_mem_pop c w u hu) _ _
            (by rw [hw]; exact not_mem_pop_self p.1 t)
        exact not_mem_removers_fold env w rest _ habs
      · exact ih _ w d hp

theorem mem_ht_fold_subset (env : HostEnv) (w : View)
    (l : List (View × ViewScaleData)) (t : S)
    (h : w ∈ ((l.foldl (fun t p => (env.children p.1).foldl
      (fun t' c => pop_transformer c t') (pop_transformer p.1 t)) t)).host_transforms) :
    w ∈ t.host_transforms := by
  by_contra hc
  exact not_mem_removers_fold env w l t hc h

theorem lookupSlot_isSome_exists (m : SlotMap) (w : View)
    (h : (lookupSlot m w).isSome = true) : ∃ d, lookupSlot m w = some d := by
  cases hl : lookupSlot m w with
  | none => rw [hl] at h; cases h
  | some d => exact ⟨d, rfl⟩

/-- finalize in normal form. -/
theorem finalize_eq (env : HostEnv) (s : S) :
    finalize env s
      = { remove_transformers env
            { s with input_release_impending := false, active := false,
                     hook_set := false } with
          scale_data := [], grabbed := false, button_connected := false,
          plugin_active := false } := by
  unfold finalize
  dsimp only
  rw [unset_hook_eq]

/-- Every view with a slot record has its transform detached by
finalize. -/
theorem finalize_detaches (env : HostEnv) (s : S) (w : View)
    (h : (lookupSlot s.scale_data w).isSome = true) :
    w ∉ (finalize env s).host_transforms := by
  obtain ⟨d, hd⟩ := lookupSlot_isSome_exists s.scale_data w h
  rw [finalize_eq]
  intro hm
  have hm' : w ∈ (remove_transformers env
      { s with
        input_release_impending := false
        active := false
        hook_set := false }).host_transforms := hm
  unfold remove_transformers at hm'
  exact entry_not_in_removers_fold env
    ({ s with
      input_release_impending := false
      active := false
      hook_set := false } : S).scale_data
    ({ s with
      input_release_impending := false
      active := false
      hook_set := false } : S) w d (lookupSlot_mem s.scale_data w d hd) hm'

/-- Under the attached-implies-slotted direction of the invariant,
finalize detaches every transform. -/
theorem finalize_ht_nil (env : HostEnv) (s : S)
    (hinv : ∀ w ∈ s.host_transforms, (lookupSlot s.scale_data w).isSome = true) :
    (finalize env s).host_transforms = [] := by
  rw [List.eq_nil_iff_forall_not_mem]
  intro w hw
  have hsub : w ∈ s.host_transforms := by
    rw [finalize_eq] at hw
    have hw' : w ∈ (remove_transformers env
        { s with
          input_release_impending := false
          active := false
          hook_set := false }).host_transforms := hw
    unfold remove_transformers at hw'
    exact mem_ht_fold_subset env w
      ({ s with
        input_release_impending := false
        active := false
        hook_set := false } : S).scale_data
      ({ s with
        input_release_impending := false
        active := false
        hook_set := false } : S) hw'
  exact finalize_detaches env s w (hinv w hsub) hw

theorem mem_keys_of_lookup (m : SlotMap) (w : View) (d : ViewScaleData)
    (h : lookupSlot m w = some d) : w ∈ m.map Prod.fst :=
  List.mem_map.mpr ⟨(w, d), lookupSlot_mem m w d h, rfl⟩

/-- C3: deactivate sets, for every window that has a slot record, the
animation targets to scale (1,1), translation (0,0) and alpha 1; and
once no animation runs while the session is inactive, post_hook equals
finalize, which removes the per-frame hooks, clears every slot record,
and detaches the transform of every slotted window (all transforms,
under the attachment invariant). -/
theorem c3_deactivate_restores_identity (env : HostEnv) (fuel : Nat) (s : S) :
    (∀ v d, lookupSlot s.scale_data v = some d →
      ∃ d', lookupSlot (deactivate env fuel s).scale_data v = some d' ∧
        d'.animation.scale_x.b = 1 ∧ d'.animation.scale_y.b = 1 ∧
        d'.animation.translation_x.b = 0 ∧ d'.animation.translation_y.b = 0 ∧
        d'.fade_animation.b = 1) ∧
    (∀ s' : S, animation_running env s' = false → s'.active = false →
      post_hook env s' = finalize env s' ∧
      (finalize env s').hook_set = false ∧
      (finalize env s').scale_data = [] ∧
      (∀ w, (lookupSlot s'.scale_data w).isSome = true →
        w ∉ (finalize env s').host_transforms) ∧
      ((∀ w ∈ s'.host_transforms, (lookupSlot s'.scale_data w).isSome = true) →
        (finalize env s').host_transforms = [])) := by
  constructor
  · intro v d hv
    unfold deactivate
    dsimp only
    set s2 : S := set_hook { s with active := false } with hs2
    have hP2 := set_hook_proj ({ s with active := false } : S)
    set s3 : S := (if ¬s2.input_release_impending
      then { s2 with grabbed := false, plugin_active := false } else s2) with hs3
    have h3sd : s3.scale_data = s.scale_data := by
      rw [hs3]; split_ifs <;> exact hP2.1
    have hvin : v ∈ s3.scale_data.map Prod.fst := by
      rw [h3sd]
      exact mem_keys_of_lookup s.scale_data v d hv
    obtain ⟨d', hd', hres⟩ :=
      deactivate_fold_restores env fuel s3.scale_data s3 v (Or.inl hvin)
    obtain ⟨-, hrf2, -, -, -, -, -, -⟩ := refocus_fields env
      (s3.scale_data.foldl (fun (t : S) (p : View × ViewScaleData) =>
        let t1 := fade_in env fuel (some p.1) t
        { t1 with scale_data := (modifySlot env t1.scale_data p.1
            (fun d => setup_view_transform env d 1 1 0 0 1)) }) s3)
    exact ⟨d', by rw [show (({ refocus env (s3.scale_data.foldl
        (fun (t : S) (p : View × ViewScaleData) =>
          let t1 := fade_in env fuel (some p.1) t
          { t1 with scale_data := (modifySlot env t1.scale_data p.1
              (fun d => setup_view_transform env d 1 1 0 0 1)) }) s3) with
        capabilities_grab := false } : S)).scale_data
        = (refocus env (s3.scale_data.foldl
          (fun (t : S) (p : View × ViewScaleData) =>
            let t1 := fade_in env fuel (some p.1) t
            { t1 with scale_data := (modifySlot env t1.scale_data p.1
                (fun d => setup_view_transform env d 1 1 0 0 1)) }) s3)).scale_data
        from rfl, hrf2]; exact hd',
      hres.1, hres.2.1, hres.2.2.1, hres.2.2.2.1, hres.2.2.2.2⟩
  · intro s' hrun hact
    have hph : post_hook env s' = finalize env s' := by
      unfold post_hook
      rw [hrun]
      simp only [Bool.false_eq_true, if_false]
      rw [unset_hook_eq, if_neg (by simp [hact])]
      rw [finalize_eq, finalize_eq]
    exact ⟨hph, (finalize_fields env s').2.1, (finalize_fields env s').1,
      fun w hw => finalize_detaches env s' w hw,
      fun hinv => finalize_ht_nil env s' hinv⟩

theorem c3_deactivate_restores_identity_witness :
    ∃ d', lookupSlot (deactivate env0 2
        { state0 with scale_data := [(4, setup_view_transform env0
          { defaultSlot 500 with transformer := some Transformer.initial } 2 2 30 40 (3/4))] }).scale_data 4
      = some d' ∧
      d'.animation.scale_x.b = 1 ∧ d'.animation.scale_y.b = 1 ∧
      d'.animation.translation_x.b = 0 ∧ d'.animation.translation_y.b = 0 ∧
      d'.fade_animation.b = 1 :=
  (c3_deactivate_restores_identity env0 2 _).1 4 _ rfl

/-! ## C4: detaching a view mid-animation -/

/-- Frame relation for the layout pipeline: only `scale_data`,
`hook_set` and `host_transforms` may change. -/
def updSH (s t : S) : Prop :=
  t = { s with
        scale_data := t.scale_data
        hook_set := t.hook_set
        host_transforms := t.host_transforms }

theorem updSH_refl (s : S) : updSH s s := rfl

theorem updSH_trans {s t u : S} (h1 : updSH s t) (h2 : updSH t u) : updSH s u := by
  unfold updSH at *
  rw [h2, h1]

theorem updSH_of_updSD {s t : S} (h : updSD s t) : updSH s t := by
  unfold updSD at h
  unfold updSH
  rw [h]

theorem updSH_foldl_from {α : Type} (f : S → α → S) (hf : ∀ t a, updSH t (f t a))
    (l : List α) {s a : S} (ha : updSH s a) : updSH s (l.foldl f a) :=
  foldl_preserve (fun t => updSH s t) f (fun t x ht => updSH_trans ht (hf t x)) l a ha

theorem updSH_add_transformer (env : HostEnv) (v : View) (s : S) :
    updSH s (add_transformer env v s).2 := by
  unfold add_transformer
  by_cases h : v ∈ s.host_transforms
  · rw [if_pos h]
    exact updSH_refl s
  · rw [if_neg h]
    exact rfl

theorem updSH_layout_cell (env : HostEnv) (av : View) (c : Cell) (v : View) (s : S) :
    updSH s (layout_cell env av c v s) := by
  unfold layout_cell
  dsimp only
  apply updSH_foldl_from
  · intro t ch
    dsimp only
    by_cases hb : (add_transformer env ch t).1 = true
    · rw [if_pos hb]
      exact updSH_trans (updSH_add_transformer env ch t) rfl
    · rw [if_neg hb]
      exact updSH_trans (updSH_add_transformer env ch t) rfl
  · exact updSH_trans (updSH_add_transformer env v s) rfl

theorem updSH_transform_views (env : HostEnv) (s : S) :
    updSH s (transform_views env s) := by
  unfold transform_views
  apply updSH_foldl_from
  · intro t p
    by_cases hc : (getSlot env t.scale_data p.1).transformer = none ∨
        env.layer_ok p.1 = false
    · rw [if_pos hc]
      exact updSH_refl t
    · rw [if_neg hc]
      dsimp only
      apply updSH_foldl_from
      · intro u ch
        cases hl : lookupSlot u.scale_data ch with
        | none => exact updSH_refl u
        | some cd =>
            dsimp only
            by_cases hn : cd.transformer = none
            · rw [if_pos hn]
              exact updSH_refl u
            · rw [if_neg hn]
              exact rfl
      · exact rfl
  · exact updSH_refl s

theorem updSH_fields {s t : S} (h : updSH s t) :
    t.active = s.active ∧ t.host_focus = s.host_focus ∧
    t.host_workspace = s.host_workspace ∧
    t.grabbed = s.grabbed ∧ t.plugin_active = s.plugin_active ∧
    t.input_release_impending = s.input_release_impending ∧
    t.current_focus_view = s.current_focus_view ∧
    t.initial_focus_view = s.initial_focus_view ∧
    t.initial_workspace = s.initial_workspace ∧
    t.capabilities_grab = s.capabilities_grab ∧
    t.grid_rows = s.grid_rows ∧ t.grid_cols = s.grid_cols ∧
    t.grid_last_row_cols = s.grid_last_row_cols ∧
    t.all_workspaces = s.all_workspaces ∧
    t.button_connected = s.button_connected ∧
    t.close_requested = s.close_requested := by
  rw [h]
  exact ⟨rfl, rfl, rfl, rfl, rfl, rfl, rfl, rfl, rfl, rfl, rfl, rfl, rfl, rfl,
    rfl, rfl⟩

/-- The tail of layout_slots (the cell fold, the hook and the transform
pass) only touches `scale_data`, `hook_set` and `host_transforms`. -/
theorem updSH_layout_tail (env : HostEnv) (av : View)
    (l : List (View × Cell)) (t : S) :
    updSH t (transform_views env (set_hook
      (l.foldl (fun u p => layout_cell env av p.2 p.1 u) t))) := by
  have h1 : updSH t (l.foldl (fun u p => layout_cell env av p.2 p.1 u) t) :=
    updSH_foldl_from (fun (u : S) (p : View × Cell) => layout_cell env av p.2 p.1 u)
      (fun u p => updSH_layout_cell env av p.2 p.1 u) l (updSH_refl t)
  exact updSH_trans (updSH_trans h1 (updSH_of_updSD (updSD_set_hook _)))
    (updSH_transform_views env _)

/-- The grid dimensions written at the top of the slot loop survive the
rest of the layout pipeline. -/
theorem layout_slots_dims_gen (env : HostEnv) (av : View) (n : Nat)
    (l : List (View × Cell)) (t : S) :
    (transform_views env (set_hook
      (l.foldl (fun u p => layout_cell env av p.2 p.1 u)
        ({ t with
           grid_rows := (gridRows n : Int)
           grid_cols := (gridCols n : Int)
           grid_last_row_cols := gridLastRowCols n } : S)))).grid_rows
        = (gridRows n : Int) ∧
    (transform_views env (set_hook
      (l.foldl (fun u p => layout_cell env av p.2 p.1 u)
        ({ t with
           grid_rows := (gridRows n : Int)
           grid_cols := (gridCols n : Int)
           grid_last_row_cols := gridLastRowCols n } : S)))).grid_cols
        = (gridCols n : Int) ∧
    (transform_views env (set_hook
      (l.foldl (fun u p => layout_cell env av p.2 p.1 u)
        ({ t with
           grid_rows := (gridRows n : Int)
           grid_cols := (gridCols n : Int)
           grid_last_row_cols := gridLastRowCols n } : S)))).grid_last_row_cols
        = gridLastRowCols n := by
  have h := updSH_fields (updSH_layout_tail env av l
    ({ t with
       grid_rows := (gridRows n : Int)
       grid_cols := (gridCols n : Int)
       grid_last_row_cols := gridLastRowCols n } : S))
  exact ⟨h.2.2.2.2.2.2.2.2.2.2.1, h.2.2.2.2.2.2.2.2.2.2.2.1,
    h.2.2.2.2.2.2.2.2.2.2.2.2.1⟩

/-- On a non-empty view list, layout_slots records the grid dimensions
of the list's length. -/
theorem layout_slots_dims (env : HostEnv) (fuel : Nat) (v0 : View)
    (rest : List View) (s : S) :
    (layout_slots env fuel (v0 :: rest) s).grid_rows
        = (gridRows (v0 :: rest).length : Int) ∧
    (layout_slots env fuel (v0 :: rest) s).grid_cols
        = (gridCols (v0 :: rest).length : Int) ∧
    (layout_slots env fuel (v0 :: rest) s).grid_last_row_cols
        = gridLastRowCols (v0 :: rest).length := by
  unfold layout_slots
  dsimp only
  exact layout_slots_dims_gen env _ _ _ _

theorem lookupSlot_eraseSlot_none (m : SlotMap) (c w : View)
    (h : lookupSlot m w = none) : lookupSlot (eraseSlot m c) w = none := by
  by_cases hw : w = c
  · rw [hw]
    exact lookupSlot_eraseSlot_self m c
  · rw [lookupSlot_eraseSlot_ne m c w hw]
    exact h

/-- The child loop of remove_view: every listed view ends up with no
slot record and no transform, and views already stripped stay so. -/
theorem remove_fold_removes (env : HostEnv) :
    ∀ (l : List View) (t : S) (w : View),
      (w ∈ l ∨ (lookupSlot t.scale_data w = none ∧ w ∉ t.host_transforms)) →
      lookupSlot ((l.foldl (fun t c =>
        let t1 := check_focus_view t c
        let t2 := pop_transformer c t1
        { t2 with scale_data := eraseSlot t2.scale_data c }) t)).scale_data w
          = none ∧
      w ∉ ((l.foldl (fun t c =>
        let t1 := check_focus_view t c
        let t2 := pop_transformer c t1
        { t2 with scale_data := eraseSlot t2.scale_data c }) t)).host_transforms := by
  intro l
  induction l with
  | nil =>
      intro t w h
      rcases h with h | h
      · cases h
      · exact h
  | cons c rest ih =>
      intro t w h
      rw [List.foldl_cons]
      rcases h with h | h
      · rcases List.mem_cons.mp h with hw | hw
        · refine ih _ w (Or.inr ⟨?_, ?_⟩)
          · show lookupSlot (eraseSlot (pop_transformer c
              (check_focus_view t c)).scale_data c) w = none
            rw [hw]
            exact lookupSlot_eraseSlot_self _ c
          · show w ∉ (pop_transformer c (check_focus_view t c)).host_transforms
            rw [hw]
            exact not_mem_pop_self c _
        · exact ih _ w (Or.inl hw)
      · refine ih _ w (Or.inr ⟨?_, ?_⟩)
        · show lookupSlot (eraseSlot (pop_transformer c
            (check_focus_view t c)).scale_data c) w = none
          apply lookupSlot_eraseSlot_none
          show lookupSlot (check_focus_view t c).scale_data w = none
          rw [(check_focus_view_proj t c).1]
          exact h.1
        · show w ∉ (pop_transformer c (check_focus_view t c)).host_transforms
          apply not_mem_pop
          show w ∉ (check_focus_view t c).host_transforms
          rw [(check_focus_view_proj t c).2]
          exact h.2

/-- remove_view strips the view's own slot record and transform, and
those of each of its children. -/
theorem remove_view_removes (env : HostEnv) (v : View) (s : S) :
    lookupSlot (remove_view env v s).scale_data v = none ∧
    v ∉ (remove_view env v s).host_transforms ∧
    ∀ c ∈ env.children v,
      lookupSlot (remove_view env v s).scale_data c = none ∧
      c ∉ (remove_view env v s).host_transforms := by
  unfold remove_view
  dsimp only
  have hself := remove_fold_removes env (env.children v)
    ({ pop_transformer v (check_focus_view s v) with
       scale_data := eraseSlot (pop_transformer v
         (check_focus_view s v)).scale_data v } : S) v
    (Or.inr ⟨lookupSlot_eraseSlot_self _ v, not_mem_pop_self v _⟩)
  exact ⟨hself.1, hself.2, fun c hc =>
    remove_fold_removes env (env.children v)
      ({ pop_transformer v (check_focus_view s v) with
         scale_data := eraseSlot (pop_transformer v
           (check_focus_view s v)).scale_data v } : S) c (Or.inl hc)⟩

/-- C4: when a top-level window that has a slot record is detached, no
matter the animation progress (the state is arbitrary), remove_view
immediately strips its slot record and attached transform and those of
its children; if eligible windows remain the handler re-lays them out,
recording the grid dimensions computed for the remaining count (N−1
windows when one of N leaves), and if none remain it finalizes the
session. -/
theorem c4_detached_cleanup (env : HostEnv) (fuel : Nat) (v : View) (s : S)
    (d : ViewScaleData) (hpar : env.parent v = none)
    (hslot : lookupSlot s.scale_data v = some d) :
    (lookupSlot (remove_view env v s).scale_data v = none ∧
     v ∉ (remove_view env v s).host_transforms ∧
     ∀ c ∈ env.children v,
       lookupSlot (remove_view env v s).scale_data c = none ∧
       c ∉ (remove_view env v s).host_transforms) ∧
    (env.eligible = [] →
      view_detached env fuel v s = finalize env (remove_view env v s)) ∧
    (∀ v0 rest, env.eligible = v0 :: rest →
      view_detached env fuel v s
          = layout_slots env fuel env.eligible (remove_view env v s) ∧
      (view_detached env fuel v s).grid_rows
          = (gridRows env.eligible.length : Int) ∧
      (view_detached env fuel v s).grid_cols
          = (gridCols env.eligible.length : Int) ∧
      (view_detached env fuel v s).grid_last_row_cols
          = gridLastRowCols env.eligible.length) := by
  have hvd : view_detached env fuel v s
      = if env.eligible = [] then finalize env (remove_view env v s)
        else layout_slots env fuel env.eligible (remove_view env v s) := by
    unfold view_detached
    rw [hpar]
    dsimp only
    rw [hslot]
    rw [if_neg (by decide : ¬false = true)]
  refine ⟨remove_view_removes env v s, ?_, ?_⟩
  · intro hel
    rw [hvd, if_pos hel]
  · intro v0 rest hel
    have hne : ¬env.eligible = [] := by
      rw [hel]
      exact List.cons_ne_nil v0 rest
    have hbr : view_detached env fuel v s
        = layout_slots env fuel env.eligible (remove_view env v s) := by
      rw [hvd, if_neg hne]
    have hdims := layout_slots_dims env fuel v0 rest (remove_view env v s)
    rw [← hel] at hdims
    refine ⟨hbr, ?_, ?_, ?_⟩
    · rw [hbr]; exact hdims.1
    · rw [hbr]; exact hdims.2.1
    · rw [hbr]; exact hdims.2.2

/-- Host with one remaining eligible view after a detach: view 7 (with
child 8) just left, view 5 stays. -/
def env4 : HostEnv :=
  { env0 with
    eligible := [5]
    children := fun w => if w = 7 then [8] else [] }

/-- Mid-session state: three slot records with attached transformers. -/
def state4 : S :=
  { state0 with
    active := true
    scale_data := [(7, { defaultSlot 500 with transformer := some Transformer.initial }),
      (8, { defaultSlot 500 with transformer := some Transformer.initial }),
      (5, { defaultSlot 500 with transformer := some Transformer.initial })]
    host_transforms := [7, 8, 5] }

theorem c4_detached_cleanup_witness :
    lookupSlot (remove_view env4 7 state4).scale_data 7 = none ∧
    7 ∉ (remove_view env4 7 state4).host_transforms ∧
    lookupSlot (remove_view env4 7 state4).scale_data 8 = none ∧
    view_detached env4 2 7 state4
        = layout_slots env4 2 env4.eligible (remove_view env4 7 state4) ∧
    (view_detached env4 2 7 state4).grid_rows = (gridRows 1 : Int) := by
  have h := c4_detached_cleanup env4 2 7 state4
    { defaultSlot 500 with transformer := some Transformer.initial } rfl rfl
  exact ⟨h.1.1, h.1.2.1, (h.1.2.2 8 (by decide)).1,
    (h.2.2 5 [] rfl).1, (h.2.2 5 [] rfl).2.1⟩

/-! ## C8: restarting a mid-flight animation -/

/-- C8: setup_view_transform starts every one of the five scalars from
the value currently held by the view's transformer; in particular,
after a transform pass has pushed the in-flight animation's sampled
values into the transformer, a re-issued setup starts each scalar from
that currently applied sampled value (and the fade from the fade's
current value), not from the original start value. -/
theorem c8_restart_from_sampled (env : HostEnv) (d : ViewScaleData)
    (tr : Transformer) (h : d.transformer = some tr) (sx sy tx ty al : ℚ) :
    ((setup_view_transform env d sx sy tx ty al).animation.scale_x.a
        = tr.scale_x ∧
     (setup_view_transform env d sx sy tx ty al).animation.scale_y.a
        = tr.scale_y ∧
     (setup_view_transform env d sx sy tx ty al).animation.translation_x.a
        = tr.translation_x ∧
     (setup_view_transform env d sx sy tx ty al).animation.translation_y.a
        = tr.translation_y ∧
     (setup_view_transform env d sx sy tx ty al).fade_animation.a
        = tr.alpha) ∧
    ((setup_view_transform env (applySample d) sx sy tx ty al).animation.scale_x.a
        = d.animation.scale_x.sample d.animation.progressQ ∧
     (setup_view_transform env (applySample d) sx sy tx ty al).animation.scale_y.a
        = d.animation.scale_y.sample d.animation.progressQ ∧
     (setup_view_transform env (applySample d) sx sy tx ty al).animation.translation_x.a
        = d.animation.translation_x.sample d.animation.progressQ ∧
     (setup_view_transform env (applySample d) sx sy tx ty al).animation.translation_y.a
        = d.animation.translation_y.sample d.animation.progressQ ∧
     (setup_view_transform env (applySample d) sx sy tx ty al).fade_animation.a
        = d.fade_animation.current) := by
  constructor
  · unfold setup_view_transform
    rw [h]
    exact ⟨rfl, rfl, rfl, rfl, rfl⟩
  · unfold applySample
    rw [h]
    dsimp only
    unfold setup_view_transform
    dsimp only
    exact ⟨rfl, rfl, rfl, rfl, rfl⟩

/-- A slot halfway through an animation: scale 1→2, translation 0→20,
fade 1→1/2, clock at 250/500 ms; the transformer holds stale values. -/
def slot8 : ViewScaleData :=
  { row := 0
    col := 0
    transformer := some ⟨7, 7, 7, 7, 7⟩
    fade_animation := ⟨1, 1/2, 250, 500⟩
    animation := ⟨⟨1, 2⟩, ⟨1, 2⟩, ⟨0, 20⟩, ⟨0, 20⟩, 250, 500⟩ }

theorem c8_restart_from_sampled_witness :
    slot8.transformer = some ⟨7, 7, 7, 7, 7⟩ ∧
    (setup_view_transform env0 (applySample slot8) 4 4 40 40 1).animation.scale_x.a
        = 3/2 ∧
    (setup_view_transform env0 (applySample slot8) 4 4 40 40 1).animation.translation_x.a
        = 10 ∧
    (setup_view_transform env0 (applySample slot8) 4 4 40 40 1).fade_animation.a
        = 3/4 := by
  have h := c8_restart_from_sampled env0 slot8 ⟨7, 7, 7, 7, 7⟩ rfl 4 4 40 40 1
  refine ⟨rfl, ?_, ?_, ?_⟩
  · rw [h.2.1]
    norm_num [slot8, Transition.sample, ScaleAnim.progressQ]
  · rw [h.2.2.2.1]
    norm_num [slot8, Transition.sample, ScaleAnim.progressQ]
  · rw [h.2.2.2.2.2]
    norm_num [slot8, FadeAnim.current, FadeAnim.progressQ]

/-! ## C7: layout idempotence -/

/-- The layout-determined part of a slot record: the grid position and
the five animation targets. -/
def slotTargets (d : ViewScaleData) : Int × Int × ℚ × ℚ × ℚ × ℚ × ℚ :=
  (d.row, d.col, d.animation.scale_x.b, d.animation.scale_y.b,
   d.animation.translation_x.b, d.animation.translation_y.b, d.fade_animation.b)

/-- The values layout_cell writes for a top-level view, a pure function
of the environment, the session's active flag, the active view and the
cell. -/
def cellTargets (env : HostEnv) (active : Bool) (av : View) (c : Cell)
    (v : View) : Int × Int × ℚ × ℚ × ℚ × ℚ × ℚ :=
  if active then
    ((c.i : Int), (c.j : Int),
     cellScale env c (env.wm_geometry v), cellScale env c (env.wm_geometry v),
     ((cellTranslation c.x c.w (env.wm_geometry v).x (env.wm_geometry v).w : Int) : ℚ),
     ((cellTranslation c.y c.h (env.wm_geometry v).y (env.wm_geometry v).h : Int) : ℚ),
     if v = av then 1 else env.inactive_alpha)
  else ((c.i : Int), (c.j : Int), 1, 1, 0, 0, 1)

/-- Pushing sampled values into the transformer does not move the grid
position or the targets. -/
theorem slotTargets_applySample (d : ViewScaleData) :
    slotTargets (applySample d) = slotTargets d := by
  unfold applySample
  cases d.transformer <;> rfl

theorem add_transformer_lookup_ne (env : HostEnv) (v w : View) (s : S)
    (h : w ≠ v) :
    lookupSlot (add_transformer env v s).2.scale_data w
      = lookupSlot s.scale_data w := by
  unfold add_transformer
  by_cases hm : v ∈ s.host_transforms
  · rw [if_pos hm]
  · rw [if_neg hm]
    dsimp only
    exact lookupSlot_modifySlot_ne env s.scale_data v w _ h

/-- A fold that preserves a predicate, where the step hypothesis is
only needed for list members. -/
theorem foldl_preserve_mem {α β : Type} (P : β → Prop) (f : β → α → β) :
    ∀ (l : List α), (∀ t a, a ∈ l → P t → P (f t a)) →
      ∀ t, P t → P (l.foldl f t) := by
  intro l
  induction l with
  | nil => intro _ t h; exact h
  | cons a rest ih =>
      intro hf t h
      rw [List.foldl_cons]
      exact ih (fun u b hb hu => hf u b (List.mem_cons_of_mem a hb) hu) _
        (hf t a (List.mem_cons_self a rest) h)

theorem insertAsc_perm (v : View) : ∀ l : List View, (insertAsc v l).Perm (v :: l) := by
  intro l
  induction l with
  | nil => exact List.Perm.refl _
  | cons w ws ih =>
      unfold insertAsc
      by_cases h : v ≤ w
      · rw [if_pos h]
      · rw [if_neg h]
        exact (List.Perm.cons w ih).trans (List.Perm.swap v w ws)

theorem sortAsc_perm : ∀ l : List View, (sortAsc l).Perm l := by
  intro l
  induction l with
  | nil => exact List.Perm.refl _
  | cons v vs ih =>
      unfold sortAsc
      exact (insertAsc_perm v (sortAsc vs)).trans (List.Perm.cons v ih)

theorem mem_zip_of_mem {α β : Type} :
    ∀ (l1 : List α) (l2 : List β) (v : α), v ∈ l1 → l1.length ≤ l2.length →
      ∃ c, (v, c) ∈ l1.zip l2 := by
  intro l1
  induction l1 with
  | nil => intro l2 v hv; cases hv
  | cons a rest ih =>
      intro l2 v hv hlen
      cases l2 with
      | nil => simp at hlen
      | cons b l2t =>
          rcases List.mem_cons.mp hv with hv | hv
          · exact ⟨b, by rw [hv]; exact List.mem_cons_self _ _⟩
          · obtain ⟨c, hc⟩ := ih l2t v hv (by simpa using hlen)
            exact ⟨c, List.mem_cons_of_mem _ hc⟩

/-- The cell list has one cell per window. -/
theorem layoutCells_length (wa : Rect) (sp : Int) {n : Nat} (h : 1 ≤ n) :
    (layoutCells wa sp n).length = n := by
  have heq : (layoutCells wa sp n).length = (layoutAssignments n).length := by
    unfold layoutCells layoutAssignments
    rw [List.length_flatMap, List.length_flatMap]
    congr 1
    apply List.map_congr_left
    intro i _
    simp
  rw [heq, layoutAssignments_length h]

/-- layout_cell does not touch the slot record of a view that is
neither the laid-out view nor one of its children. -/
theorem layout_cell_lookup_ne (env : HostEnv) (av : View) (c : Cell) (v : View)
    (u : S) (w : View) (hwv : w ≠ v) (hwc : ∀ ch ∈ env.children v, w ≠ ch) :
    lookupSlot (layout_cell env av c v u).scale_data w
      = lookupSlot u.scale_data w := by
  unfold layout_cell
  dsimp only
  refine foldl_preserve_mem
    (fun (t : S) => lookupSlot t.scale_data w = lookupSlot u.scale_data w) _ _ ?_ _ ?_
  · intro t ch hmem hP
    dsimp only
    rw [lookupSlot_modifySlot_ne env _ ch w _ (hwc ch hmem)]
    by_cases hb : (add_transformer env ch t).1 = true
    · rw [if_pos hb]
      dsimp only
      rw [lookupSlot_modifySlot_ne env _ ch w _ (hwc ch hmem),
        lookupSlot_indexSlot_ne env _ ch w (hwc ch hmem),
        add_transformer_lookup_ne env ch w t (hwc ch hmem)]
      exact hP
    · rw [if_neg hb]
      dsimp only
      rw [lookupSlot_indexSlot_ne env _ ch w (hwc ch hmem),
        add_transformer_lookup_ne env ch w t (hwc ch hmem)]
      exact hP
  · dsimp only
    rw [lookupSlot_modifySlot_ne env _ v w _ hwv,
      lookupSlot_indexSlot_ne env _ v w hwv,
      add_transformer_lookup_ne env v w u hwv]

/-- layout_cell writes the cell's grid position and targets into the
laid-out view's slot record. -/
theorem layout_cell_writes (env : HostEnv) (av : View) (c : Cell) (v : View)
    (u : S) (hch : ∀ ch ∈ env.children v, ch ≠ v) :
    ∃ d, lookupSlot (layout_cell env av c v u).scale_data v = some d ∧
      slotTargets d = cellTargets env u.active av c v := by
  unfold layout_cell
  dsimp only
  refine foldl_preserve_mem
    (fun (t : S) => ∃ d, lookupSlot t.scale_data v = some d ∧
      slotTargets d = cellTargets env u.active av c v) _ _ ?_ _ ?_
  · intro t ch hmem hP
    obtain ⟨d, hd, ht⟩ := hP
    refine ⟨d, ?_, ht⟩
    dsimp only
    rw [lookupSlot_modifySlot_ne env _ ch v _ (Ne.symm (hch ch hmem))]
    by_cases hb : (add_transformer env ch t).1 = true
    · rw [if_pos hb]
      dsimp only
      rw [lookupSlot_modifySlot_ne env _ ch v _ (Ne.symm (hch ch hmem)),
        lookupSlot_indexSlot_ne env _ ch v (Ne.symm (hch ch hmem)),
        add_transformer_lookup_ne env ch v t (Ne.symm (hch ch hmem))]
      exact hd
    · rw [if_neg hb]
      dsimp only
      rw [lookupSlot_indexSlot_ne env _ ch v (Ne.symm (hch ch hmem)),
        add_transformer_lookup_ne env ch v t (Ne.symm (hch ch hmem))]
      exact hd
  · dsimp only
    refine ⟨_, lookupSlot_modifySlot_self env _ v _, ?_⟩
    rw [(updSH_fields (updSH_add_transformer env v u)).1]
    unfold slotTargets cellTargets setup_view_transform
    by_cases hA : u.active = true
    · rw [if_pos hA, if_pos hA]
    · rw [if_neg hA, if_neg hA]

/-- The slot loop gives every listed view the grid position and
targets of its paired cell, independent of the incoming slot data. -/
theorem layout_fold_targets (env : HostEnv) (av : View) :
    ∀ (l : List (View × Cell)) (t : S) (v : View) (c : Cell),
      (l.map Prod.fst).Nodup →
      (∀ p ∈ l, ∀ ch ∈ env.children p.1, ∀ q ∈ l, ch ≠ q.1) →
      (v, c) ∈ l →
      ∃ d, lookupSlot ((l.foldl (fun u p => layout_cell env av p.2 p.1 u)
          t)).scale_data v = some d ∧
        slotTargets d = cellTargets env t.active av c v := by
  intro l
  induction l with
  | nil => intro t v c _ _ hm; cases hm
  | cons p rest ih =>
      intro t v c hnd hch hm
      rw [List.foldl_cons]
      rcases List.mem_cons.mp hm with hm | hm
      · subst hm
        obtain ⟨d, hd, ht⟩ := layout_cell_writes env av (v, c).2 (v, c).1 t
          (fun ch hch2 => hch (v, c) (List.mem_cons_self (v, c) rest) ch hch2
            (v, c) (List.mem_cons_self (v, c) rest))
        refine ⟨d, ?_, ht⟩
        refine foldl_preserve_mem
          (fun (w : S) => lookupSlot w.scale_data v = some d) _ _ ?_ _ hd
        intro w q hq hPw
        have hvq : v ≠ q.1 := by
          intro he
          have hmem2 : q.1 ∈ rest.map Prod.fst := List.mem_map.mpr ⟨q, hq, rfl⟩
          rw [← he] at hmem2
          exact (List.nodup_cons.mp (by simpa using hnd)).1 hmem2
        have hvch : ∀ ch ∈ env.children q.1, v ≠ ch := by
          intro ch hc2 he
          exact (hch q (List.mem_cons_of_mem (v, c) hq) ch hc2 (v, c)
            (List.mem_cons_self (v, c) rest)) he.symm
        rw [layout_cell_lookup_ne env av q.2 q.1 w v hvq hvch]
        exact hPw
      · have hact := (updSH_fields (updSH_layout_cell env av p.2 p.1 t)).1
        obtain ⟨d, hd, ht⟩ := ih (layout_cell env av p.2 p.1 t) v c
          (by simpa using (List.nodup_cons.mp (by simpa using hnd)).2)
          (fun q hq ch hc2 r hr =>
            hch q (List.mem_cons_of_mem p hq) ch hc2 r (List.mem_cons_of_mem p hr))
          hm
        rw [hact] at ht
        exact ⟨d, hd, ht⟩

/-- transform_views leaves every slot's grid position and targets in
place (it only refreshes transformer contents). -/
theorem transform_views_targets (env : HostEnv) (u : S) (v : View)
    (d : ViewScaleData) (h : lookupSlot u.scale_data v = some d) :
    ∃ d', lookupSlot (transform_views env u).scale_data v = some d' ∧
      slotTargets d' = slotTargets d := by
  unfold transform_views
  refine foldl_preserve_mem
    (fun (t : S) => ∃ d', lookupSlot t.scale_data v = some d' ∧
      slotTargets d' = slotTargets d) _ _ ?_ _ ⟨d, h, rfl⟩
  intro t p _ hP
  obtain ⟨d', hd', ht'⟩ := hP
  by_cases hc : (getSlot env t.scale_data p.1).transformer = none ∨
      env.layer_ok p.1 = false
  · rw [if_pos hc]
    exact ⟨d', hd', ht'⟩
  · rw [if_neg hc]
    dsimp only
    refine foldl_preserve_mem
      (fun (w : S) => ∃ d', lookupSlot w.scale_data v = some d' ∧
        slotTargets d' = slotTargets d) _ _ ?_ _ ?_
    · intro w ch _ hPw
      obtain ⟨e, he, hte⟩ := hPw
      cases hl : lookupSlot w.scale_data ch with
      | none => exact ⟨e, he, hte⟩
      | some cd =>
          dsimp only
          by_cases hn : cd.transformer = none
          · rw [if_pos hn]
            exact ⟨e, he, hte⟩
          · rw [if_neg hn]
            by_cases hv : ch = v
            · refine ⟨applySample cd, ?_, ?_⟩
              · show lookupSlot (setSlot w.scale_data ch (applySample cd)) v
                    = some (applySample cd)
                rw [← hv]
                exact lookupSlot_setSlot_self _ ch _
              · have : cd = e := by
                  rw [hv] at hl
                  rw [hl] at he
                  exact Option.some.inj he
                rw [this, slotTargets_applySample]
                exact hte
            · refine ⟨e, ?_, hte⟩
              show lookupSlot (setSlot w.scale_data ch (applySample cd)) v = some e
              rw [lookupSlot_setSlot_ne _ ch v _ (fun hh => hv hh.symm)]
              exact he
    · by_cases hv : p.1 = v
      · refine ⟨applySample (getSlot env t.scale_data p.1), ?_, ?_⟩
        · show lookupSlot (modifySlot env t.scale_data p.1 applySample) v
              = some (applySample (getSlot env t.scale_data p.1))
          rw [← hv]
          exact lookupSlot_modifySlot_self env _ p.1 _
        · have : getSlot env t.scale_data p.1 = d' := by
            unfold getSlot
            rw [hv, hd']
            rfl
          rw [this, slotTargets_applySample]
          exact ht'
      · refine ⟨d', ?_, ht'⟩
        show lookupSlot (modifySlot env t.scale_data p.1 applySample) v = some d'
        rw [lookupSlot_modifySlot_ne env _ p.1 v _ (fun hh => hv hh.symm)]
        exact hd'

/-- The layout pipeline from the fade phase on: every listed view ends
with its paired cell's position and targets, as a function of the
incoming active flag only. -/
theorem pipeline_targets (env : HostEnv) (fuel : Nat) (av : View) (n : Nat)
    (l : List (View × Cell)) (t : S) (v : View) (c : Cell)
    (hnd : (l.map Prod.fst).Nodup)
    (hch : ∀ p ∈ l, ∀ ch ∈ env.children p.1, ∀ q ∈ l, ch ≠ q.1)
    (hmem : (v, c) ∈ l) :
    ∃ d, lookupSlot (transform_views env (set_hook (l.foldl
        (fun u p => layout_cell env av p.2 p.1 u)
        ({ fade_out_all_except env fuel (some av) (fade_in env fuel (some av) t) with
           grid_rows := (gridRows n : Int)
           grid_cols := (gridCols n : Int)
           grid_last_row_cols := gridLastRowCols n } : S)))).scale_data v = some d ∧
      slotTargets d = cellTargets env t.active av c v := by
  obtain ⟨d0, hd0, ht0⟩ := layout_fold_targets env av l
    ({ fade_out_all_except env fuel (some av) (fade_in env fuel (some av) t) with
       grid_rows := (gridRows n : Int)
       grid_cols := (gridCols n : Int)
       grid_last_row_cols := gridLastRowCols n } : S) v c hnd hch hmem
  have hact : ({ fade_out_all_except env fuel (some av)
        (fade_in env fuel (some av) t) with
      grid_rows := (gridRows n : Int)
      grid_cols := (gridCols n : Int)
      grid_last_row_cols := gridLastRowCols n } : S).active = t.active := by
    show (fade_out_all_except env fuel (some av)
      (fade_in env fuel (some av) t)).active = t.active
    rw [(updSD.fields (updSD_fade_out_all_except env fuel (some av) _)).1,
      (updSD.fields (updSD_fade_in env fuel (some av) t)).1]
  rw [hact] at ht0
  have hsh : lookupSlot (set_hook (l.foldl
      (fun u p => layout_cell env av p.2 p.1 u)
      ({ fade_out_all_except env fuel (some av) (fade_in env fuel (some av) t) with
         grid_rows := (gridRows n : Int)
         grid_cols := (gridCols n : Int)
         grid_last_row_cols := gridLastRowCols n } : S))).scale_data v = some d0 := by
    rw [(set_hook_proj _).1]
    exact hd0
  obtain ⟨d, hd, ht⟩ := transform_views_targets env _ v d0 hsh
  exact ⟨d, hd, ht.trans ht0⟩

/-- The layout pipeline does not change the active flag, the host
focus or the workspace-spanning flag. -/
theorem pipeline_fields (env : HostEnv) (fuel : Nat) (av : View) (n : Nat)
    (l : List (View × Cell)) (t : S) :
    (transform_views env (set_hook (l.foldl
        (fun u p => layout_cell env av p.2 p.1 u)
        ({ fade_out_all_except env fuel (some av) (fade_in env fuel (some av) t) with
           grid_rows := (gridRows n : Int)
           grid_cols := (gridCols n : Int)
           grid_last_row_cols := gridLastRowCols n } : S)))).active = t.active ∧
    (transform_views env (set_hook (l.foldl
        (fun u p => layout_cell env av p.2 p.1 u)
        ({ fade_out_all_except env fuel (some av) (fade_in env fuel (some av) t) with
           grid_rows := (gridRows n : Int)
           grid_cols := (gridCols n : Int)
           grid_last_row_cols := gridLastRowCols n } : S)))).host_focus = t.host_focus ∧
    (transform_views env (set_hook (l.foldl
        (fun u p => layout_cell env av p.2 p.1 u)
        ({ fade_out_all_except env fuel (some av) (fade_in env fuel (some av) t) with
           grid_rows := (gridRows n : Int)
           grid_cols := (gridCols n : Int)
           grid_last_row_cols := gridLastRowCols n } : S)))).all_workspaces
      = t.all_workspaces := by
  have h := updSH_fields (updSH_layout_tail env av l
    ({ fade_out_all_except env fuel (some av) (fade_in env fuel (some av) t) with
       grid_rows := (gridRows n : Int)
       grid_cols := (gridCols n : Int)
       grid_last_row_cols := gridLastRowCols n } : S))
  have hfo := updSD.fields (updSD_fade_out_all_except env fuel (some av)
    (fade_in env fuel (some av) t))
  have hfi := updSD.fields (updSD_fade_in env fuel (some av) t)
  refine ⟨?_, ?_, ?_⟩
  · rw [h.1]
    show (fade_out_all_except env fuel (some av)
      (fade_in env fuel (some av) t)).active = t.active
    rw [hfo.1, hfi.1]
  · rw [h.2.1]
    show (fade_out_all_except env fuel (some av)
      (fade_in env fuel (some av) t)).host_focus = t.host_focus
    rw [hfo.2.2.1, hfi.2.2.1]
  · rw [h.2.2.2.2.2.2.2.2.2.2.2.2.2.1]
    show (fade_out_all_except env fuel (some av)
      (fade_in env fuel (some av) t)).all_workspaces = t.all_workspaces
    rw [hfo.2.2.2.2.2.2.2.2.2.2.2.2.2.2.1, hfi.2.2.2.2.2.2.2.2.2.2.2.2.2.2.1]

/-- After layout_slots on a non-empty duplicate-free view list whose
children stay outside the list, every view paired with a cell of the
grid holds that cell's position and targets, a function of the state
only through its active flag and active view. -/
theorem layout_slots_targets (env : HostEnv) (fuel : Nat) (v0 : View)
    (rest : List View) (s : S) (v : View) (c : Cell)
    (hnd : (v0 :: rest).Nodup)
    (hch : ∀ w ∈ v0 :: rest, ∀ ch ∈ env.children w, ch ∉ v0 :: rest)
    (hmem : (v, c) ∈ (sortAsc (v0 :: rest)).zip
        (layoutCells env.workarea env.spacing (v0 :: rest).length)) :
    ∃ d, lookupSlot (layout_slots env fuel (v0 :: rest) s).scale_data v = some d ∧
      slotTargets d = cellTargets env s.active (activeViewOf env s v0) c v := by
  have hperm := sortAsc_perm (v0 :: rest)
  have hlen : (sortAsc (v0 :: rest)).length
      ≤ (layoutCells env.workarea env.spacing (v0 :: rest).length).length := by
    have h1n : 1 ≤ (v0 :: rest).length := by
      rw [List.length_cons]
      exact Nat.le_add_left 1 rest.length
    rw [hperm.length_eq,
      layoutCells_length env.workarea env.spacing h1n]
  have hfst : ((sortAsc (v0 :: rest)).zip
      (layoutCells env.workarea env.spacing (v0 :: rest).length)).map Prod.fst
        = sortAsc (v0 :: rest) :=
    List.map_fst_zip _ _ hlen
  have hndz : (((sortAsc (v0 :: rest)).zip
      (layoutCells env.workarea env.spacing (v0 :: rest).length)).map
        Prod.fst).Nodup := by
    rw [hfst]
    exact hnd.perm hperm.symm
  have hchz : ∀ p ∈ (sortAsc (v0 :: rest)).zip
        (layoutCells env.workarea env.spacing (v0 :: rest).length),
      ∀ ch ∈ env.children p.1,
      ∀ q ∈ (sortAsc (v0 :: rest)).zip
        (layoutCells env.workarea env.spacing (v0 :: rest).length),
      ch ≠ q.1 := by
    intro p hp ch hc2 q hq he
    have hp1 : p.1 ∈ v0 :: rest := hperm.mem_iff.mp
      (by rw [← hfst]; exact List.mem_map_of_mem Prod.fst hp)
    have hq1 : q.1 ∈ v0 :: rest := hperm.mem_iff.mp
      (by rw [← hfst]; exact List.mem_map_of_mem Prod.fst hq)
    exact hch p.1 hp1 ch hc2 (by rw [he]; exact hq1)
  unfold layout_slots
  dsimp only
  by_cases h2 : s.initial_focus_view = none
  · rw [if_pos h2]
    dsimp only
    split_ifs with h3 <;>
      exact pipeline_targets env fuel _ _ _ _ v c hndz hchz hmem
  · rw [if_neg h2]
    dsimp only
    split_ifs with h3 <;>
      exact pipeline_targets env fuel _ _ _ _ v c hndz hchz hmem

/-- layout_slots on a non-empty list: the active flag and
workspace-spanning flag survive, and the host focus moves to the
active view exactly when the session spans all workspaces. -/
theorem layout_slots_outer (env : HostEnv) (fuel : Nat) (v0 : View)
    (rest : List View) (s : S) :
    (layout_slots env fuel (v0 :: rest) s).active = s.active ∧
    (layout_slots env fuel (v0 :: rest) s).host_focus
      = (if s.all_workspaces = true then some (activeViewOf env s v0)
         else s.host_focus) ∧
    (layout_slots env fuel (v0 :: rest) s).all_workspaces
      = s.all_workspaces := by
  unfold layout_slots
  dsimp only
  by_cases h2 : s.initial_focus_view = none
  · rw [if_pos h2]
    dsimp only
    split_ifs with h3 <;>
      exact ⟨(pipeline_fields env fuel _ _ _ _).1,
        (pipeline_fields env fuel _ _ _ _).2.1,
        (pipeline_fields env fuel _ _ _ _).2.2⟩
  · rw [if_neg h2]
    dsimp only
    split_ifs with h3 <;>
      exact ⟨(pipeline_fields env fuel _ _ _ _).1,
        (pipeline_fields env fuel _ _ _ _).2.1,
        (pipeline_fields env fuel _ _ _ _).2.2⟩

theorem scale_view_activeViewOf (env : HostEnv) (s : S) (v0 : View)
    (hv0 : scale_view env v0 = true) :
    scale_view env (activeViewOf env s v0) = true := by
  unfold activeViewOf
  cases s.host_focus with
  | none => exact hv0
  | some a =>
      dsimp only
      by_cases h : scale_view env a = true
      · rw [if_pos h]
        exact h
      · rw [if_neg h]
        exact hv0

/-- With an eligible head view, re-running the active-view selection
after a layout returns the same active view. -/
theorem activeViewOf_stable (env : HostEnv) (fuel : Nat) (v0 : View)
    (rest : List View) (s : S) (hv0 : scale_view env v0 = true) :
    activeViewOf env (layout_slots env fuel (v0 :: rest) s) v0
      = activeViewOf env s v0 := by
  have h := (layout_slots_outer env fuel v0 rest s).2.1
  by_cases hw : s.all_workspaces = true
  · rw [if_pos hw] at h
    show (match (layout_slots env fuel (v0 :: rest) s).host_focus with
      | some a => if scale_view env a then a else v0
      | none => v0) = activeViewOf env s v0
    rw [h]
    dsimp only
    rw [if_pos (scale_view_activeViewOf env s v0 hv0)]
  · rw [if_neg hw] at h
    show (match (layout_slots env fuel (v0 :: rest) s).host_focus with
      | some a => if scale_view env a then a else v0
      | none => v0) = activeViewOf env s v0
    rw [h]
    exact rfl

/-- C7: with an unchanged window set (duplicate-free, children outside
the set, head view eligible) laying out twice gives every window the
same (row, col) assignment and the same five animation targets as
laying out once — layout does not drift. -/
theorem c7_layout_idempotent (env : HostEnv) (fuel : Nat) (v0 : View)
    (rest : List View) (s : S)
    (hnd : (v0 :: rest).Nodup)
    (hch : ∀ w ∈ v0 :: rest, ∀ ch ∈ env.children w, ch ∉ v0 :: rest)
    (hv0 : scale_view env v0 = true) :
    ∀ v ∈ v0 :: rest, ∃ d1 d2,
      lookupSlot (layout_slots env fuel (v0 :: rest) s).scale_data v = some d1 ∧
      lookupSlot (layout_slots env fuel (v0 :: rest)
        (layout_slots env fuel (v0 :: rest) s)).scale_data v = some d2 ∧
      d2.row = d1.row ∧ d2.col = d1.col ∧ slotTargets d2 = slotTargets d1 := by
  intro v hv
  have hperm := sortAsc_perm (v0 :: rest)
  have h1n : 1 ≤ (v0 :: rest).length := by
    rw [List.length_cons]
    exact Nat.le_add_left 1 rest.length
  have hlen : (sortAsc (v0 :: rest)).length
      ≤ (layoutCells env.workarea env.spacing (v0 :: rest).length).length := by
    rw [hperm.length_eq, layoutCells_length env.workarea env.spacing h1n]
  obtain ⟨c, hmem⟩ := mem_zip_of_mem _ _ v (hperm.mem_iff.mpr hv) hlen
  obtain ⟨d1, hd1, ht1⟩ := layout_slots_targets env fuel v0 rest s v c hnd hch hmem
  obtain ⟨d2, hd2, ht2⟩ := layout_slots_targets env fuel v0 rest
    (layout_slots env fuel (v0 :: rest) s) v c hnd hch hmem
  rw [(layout_slots_outer env fuel v0 rest s).1,
    activeViewOf_stable env fuel v0 rest s hv0] at ht2
  have htt : slotTargets d2 = slotTargets d1 := ht2.trans ht1.symm
  exact ⟨d1, d2, hd1, hd2, congrArg (fun x => x.1) htt,
    congrArg (fun x => x.2.1) htt, htt⟩

/-- A host with two eligible childless views. -/
def env7 : HostEnv := { env0 with eligible := [1, 2] }

theorem c7_layout_idempotent_witness :
    ∃ d1 d2,
      lookupSlot (layout_slots env7 2 [1, 2]
        { state0 with active := true }).scale_data 1 = some d1 ∧
      lookupSlot (layout_slots env7 2 [1, 2] (layout_slots env7 2 [1, 2]
        { state0 with active := true })).scale_data 1 = some d2 ∧
      d2.row = d1.row ∧ d2.col = d1.col ∧ slotTargets d2 = slotTargets d1 :=
  c7_layout_idempotent env7 2 1 [2] { state0 with active := true }
    (by decide) (by decide) rfl 1 (by decide)

end WayfireScale
